import Mathlib

/-!
Verification of the Reservation & Code-Matching Engine of the El-WeshaqBot
repository (src/main.py, src/models.py, src/config.py).

The engine state (the relational tables of models.py) is embedded as lists of
rows; each engine operation of main.py is translated to a pure function on
that state.  Row mutations through a primary-key lookup are rendered as a map
over the table that rewrites the rows carrying that key (primary keys are
unique in the store; the uniqueness is part of the invariants proved below).
Money (DECIMAL columns, converted through float in main.py) is modelled with
exact rationals; timestamps are seconds as naturals.
-/

/-! ## Data model (src/models.py) -/

/-- Status column of the numbers table. -/
inductive NumberStatus
  | AVAILABLE
  | RESERVED
  | USED
  | DELETED
  deriving DecidableEq, Repr

/-- Status column of the reservations table. -/
inductive ReservationStatus
  | WAITING_CODE
  | COMPLETED
  | EXPIRED
  | CANCELED
  deriving DecidableEq, Repr

/-- Kind column of the transactions table. -/
inductive TransactionType
  | ADD
  | DEDUCT
  | PURCHASE
  | REWARD
  deriving DecidableEq, Repr

/-- Security mode of a service-to-group mapping. -/
inductive SecurityMode
  | TOKEN_ONLY
  | ADMIN_ONLY
  | HMAC
  deriving DecidableEq, Repr

/-- Status column of the provider_messages audit table. -/
inductive MessageStatus
  | PENDING
  | PROCESSED
  | REJECTED
  | ORPHAN
  deriving DecidableEq, Repr

/-- A row of the users table (the columns the engine reads or writes). -/
structure UserRow where
  id : Nat
  telegram_id : String
  balance : Rat
  deriving DecidableEq, Repr

/-- A row of the services table (the columns the engine reads). -/
structure ServiceRow where
  id : Nat
  name : String
  default_price : Rat
  deriving DecidableEq, Repr

/-- A row of the numbers table. -/
structure NumberRow where
  id : Nat
  service_id : Nat
  country_code : String
  phone_number : String
  status : NumberStatus
  reserved_by_user_id : Option Nat
  reserved_at : Option Nat
  expires_at : Option Nat
  code_received_at : Option Nat
  price_override : Option Rat
  deriving DecidableEq, Repr

/-- A row of the reservations table. -/
structure ReservationRow where
  id : Nat
  user_id : Nat
  service_id : Nat
  number_id : Nat
  status : ReservationStatus
  created_at : Option Nat
  completed_at : Option Nat
  expired_at : Option Nat
  code_value : Option String
  deriving DecidableEq, Repr

/-- A row of the transactions ledger. -/
structure TransactionRow where
  user_id : Nat
  type : TransactionType
  amount : Rat
  reason : String
  deriving DecidableEq, Repr

/-- A row of the service_groups table (per-service channel security config). -/
structure ServiceGroupRow where
  id : Nat
  service_id : Nat
  group_chat_id : String
  secret_token : Option String
  regex_pattern : String
  security_mode : SecurityMode
  active : Bool
  deriving DecidableEq, Repr

/-- A row of the service_provider_map table. -/
structure ServiceProviderMapRow where
  id : Nat
  service_id : Nat
  provider_id : Nat
  regex_pattern : String
  deriving DecidableEq, Repr

/-- A row of the provider_messages audit table.  Note the timestamp column is
named received_at; the model defines no created_at column. -/
structure ProviderMessageRow where
  id : Nat
  service_id : Option Nat
  group_chat_id : String
  sender_id : String
  message_text : Option String
  raw_payload : Option String
  received_at : Nat
  status : MessageStatus
  processed_at : Option Nat
  deriving DecidableEq, Repr

/-- Attributes defined on the ProviderMessage declarative class in
src/models.py: its mapped columns plus the service relationship.  The
SQLAlchemy declarative constructor rejects any keyword argument that is not in
this set, and accessing any other attribute on the class raises
AttributeError. -/
def providerMessageAttrs : List String :=
  ["id", "service_id", "group_chat_id", "sender_id", "message_text",
   "raw_payload", "received_at", "status", "processed_at", "service"]

/-- The store: one list of rows per table, plus the autoincrement counter of
the reservations table (database sequences never reuse an id). -/
structure DB where
  users : List UserRow
  services : List ServiceRow
  numbers : List NumberRow
  reservations : List ReservationRow
  transactions : List TransactionRow
  service_groups : List ServiceGroupRow
  service_provider_maps : List ServiceProviderMapRow
  provider_messages : List ProviderMessageRow
  next_reservation_id : Nat
  deriving DecidableEq, Repr

/-! ## Configuration defaults (src/config.py) -/

def RESERVATION_TIMEOUT_MIN : Nat := 20

def MESSAGE_TIMESTAMP_WINDOW_MIN : Nat := 5

/-! ## Store access helpers -/

/-- `db.query(Reservation).filter(Reservation.id == rid).first()`. -/
def findReservation (db : DB) (rid : Nat) : Option ReservationRow :=
  db.reservations.find? (fun r => decide (r.id = rid))

/-- `db.query(User).filter(User.id == uid).first()`. -/
def findUser (db : DB) (uid : Nat) : Option UserRow :=
  db.users.find? (fun u => decide (u.id = uid))

/-- `db.query(Service).filter(Service.id == sid).first()`. -/
def findService (db : DB) (sid : Nat) : Option ServiceRow :=
  db.services.find? (fun s => decide (s.id = sid))

/-- `db.query(Number).filter(Number.id == nid).first()`. -/
def findNumber (db : DB) (nid : Nat) : Option NumberRow :=
  db.numbers.find? (fun n => decide (n.id = nid))

/-- Rewrite the reservation row carrying primary key `rid`. -/
def updateReservationById (db : DB) (rid : Nat)
    (f : ReservationRow → ReservationRow) : DB :=
  { db with reservations := db.reservations.map (fun r => if r.id = rid then f r else r) }

/-- Rewrite the user row carrying primary key `uid`. -/
def updateUserById (db : DB) (uid : Nat) (f : UserRow → UserRow) : DB :=
  { db with users := db.users.map (fun u => if u.id = uid then f u else u) }

/-- Rewrite the number row carrying primary key `nid`. -/
def updateNumberById (db : DB) (nid : Nat) (f : NumberRow → NumberRow) : DB :=
  { db with numbers := db.numbers.map (fun n => if n.id = nid then f n else n) }

/-- Mark a reservation row EXPIRED (the sweeper's and the insufficient-balance
branch's row mutation). -/
def expireMark (x : ReservationRow) : ReservationRow :=
  { x with status := ReservationStatus.EXPIRED }

/-- Return a number row to stock: status AVAILABLE, owner and timestamps
cleared (the release mutation shared by the sweeper and the change
handlers). -/
def clearNumber (n : NumberRow) : NumberRow :=
  { n with status := NumberStatus.AVAILABLE,
           reserved_by_user_id := none,
           reserved_at := none,
           expires_at := none }

/-- Hand a number row to a user: status RESERVED with owner and timestamps
set (the mutation shared by `reserve_number` and the restore/move paths of
`change_number_handler`). -/
def reserveNumberFor (uid now : Nat) (exp : Option Nat) (n : NumberRow) : NumberRow :=
  { n with status := NumberStatus.RESERVED,
           reserved_by_user_id := some uid,
           reserved_at := some now,
           expires_at := exp }

/-! ## Reservation Manager (src/main.py) -/

/-- Notifications sent through the bot by the engine (fire-and-forget side
effects; collected as outputs of the pure model). -/
inductive Notif
  | insufficientBalance (telegram_id : String) (price balance : Rat)
  | codeDelivered (telegram_id : String) (phone code : String) (price newBalance : Rat)
  | lowStock (service_id : Nat) (country_code : String)
  | reservationExpired (telegram_id : String)
  deriving DecidableEq, Repr

/-- Result of `complete_reservation_atomic`: the store after the call, the
boolean the Python coroutine returns, and the notifications it sent. -/
structure CompleteResult where
  db : DB
  ok : Bool
  notifs : List Notif
  deriving DecidableEq, Repr

/-- `price = float(number.price_override or service.default_price)`
(main.py line 1157).  Python `or` falls through on a falsy value, so a NULL
or zero override yields the service default. -/
def price_of (number : NumberRow) (service : ServiceRow) : Rat :=
  match number.price_override with
  | some p => if p = 0 then service.default_price else p
  | none => service.default_price

/-- `complete_reservation_atomic` (main.py lines 1123-1225).  Under one
transaction: re-reads the reservation and returns False unless its status is
still WAITING_CODE; loads the user, service and number rows (False if any is
missing); computes the price; on `balance < price` flips the reservation to
EXPIRED, notifies the user and returns False; otherwise debits the user,
marks the reservation COMPLETED with the code, flips the number to USED,
appends one PURCHASE transaction, counts the remaining AVAILABLE numbers of
the (service, country) pair, notifies the user and possibly the admin, and
returns True. -/
def complete_reservation_atomic (db : DB) (reservation_id : Nat) (code : String)
    (now : Nat) : CompleteResult :=
  match findReservation db reservation_id with
  | none => ⟨db, false, []⟩
  | some reservation =>
    if reservation.status ≠ ReservationStatus.WAITING_CODE then ⟨db, false, []⟩
    else
      match findUser db reservation.user_id, findService db reservation.service_id,
            findNumber db reservation.number_id with
      | some user, some service, some number =>
        let price := price_of number service
        if user.balance < price then
          ⟨updateReservationById db reservation_id expireMark,
           false,
           [Notif.insufficientBalance user.telegram_id price user.balance]⟩
        else
          let db1 := updateUserById db user.id
            (fun u => { u with balance := u.balance - price })
          let db2 := updateReservationById db1 reservation_id
            (fun r => { r with status := ReservationStatus.COMPLETED,
                               code_value := some code,
                               completed_at := some now })
          let db3 := updateNumberById db2 number.id
            (fun n => { n with status := NumberStatus.USED,
                               code_received_at := some now })
          let tx : TransactionRow :=
            { user_id := user.id, type := TransactionType.PURCHASE, amount := price,
              reason := service.name ++ (" ") ++ number.phone_number }
          let db4 := { db3 with transactions := db3.transactions ++ [tx] }
          let remaining := (db4.numbers.filter (fun n =>
            decide (n.service_id = reservation.service_id) &&
            decide (n.country_code = number.country_code) &&
            decide (n.status = NumberStatus.AVAILABLE) &&
            decide (n.id ≠ number.id))).length
          ⟨db4, true,
           [Notif.codeDelivered user.telegram_id number.phone_number code price
              (user.balance - price)] ++
           (if remaining = 0 then [Notif.lowStock reservation.service_id number.country_code]
            else [])⟩
      | _, _, _ => ⟨db, false, []⟩

/-- `reserve_number` (main.py lines 1085-1121): pick the first AVAILABLE
number of the (service, country) pair, create a WAITING_CODE reservation with
expiry now + timeout, and flip the number to RESERVED. -/
def reserve_number (db : DB) (user_id service_id : Nat) (country_code : String)
    (now : Nat) : DB × Option ReservationRow :=
  match db.numbers.find? (fun n =>
      decide (n.service_id = service_id) && decide (n.country_code = country_code) &&
      decide (n.status = NumberStatus.AVAILABLE)) with
  | none => (db, none)
  | some available_number =>
    let expires_at := now + RESERVATION_TIMEOUT_MIN * 60
    let reservation : ReservationRow :=
      { id := db.next_reservation_id, user_id := user_id, service_id := service_id,
        number_id := available_number.id, status := ReservationStatus.WAITING_CODE,
        created_at := some now, completed_at := none, expired_at := some expires_at,
        code_value := none }
    let db1 := updateNumberById db available_number.id
      (reserveNumberFor user_id now (some expires_at))
    ({ db1 with reservations := db1.reservations ++ [reservation],
                next_reservation_id := db.next_reservation_id + 1 },
     some reservation)

/-! ## Expiry Sweeper (src/main.py lines 1328-1374) -/

/-- The filter of the sweeper's query: `status == WAITING_CODE` and
`expired_at < now` (a NULL expiry never satisfies the SQL comparison). -/
def sweepCond (now : Nat) (r : ReservationRow) : Bool :=
  decide (r.status = ReservationStatus.WAITING_CODE) &&
  (match r.expired_at with
   | some t => decide (t < now)
   | none => false)

/-- Body of the sweeper's loop for one expired reservation `r` from the query
snapshot: mark the reservation EXPIRED, return its number to AVAILABLE with
owner and timestamps cleared (if the number row exists), and notify the
owning user (if the user row exists). -/
def expire_one (db : DB) (r : ReservationRow) (notifs : List Notif) : DB × List Notif :=
  let db1 := updateReservationById db r.id expireMark
  let db2 :=
    match findNumber db1 r.number_id with
    | some _ => updateNumberById db1 r.number_id clearNumber
    | none => db1
  match findUser db2 r.user_id with
  | some user => (db2, notifs ++ [Notif.reservationExpired user.telegram_id])
  | none => (db2, notifs)

/-- One pass of `check_expired_reservations`: query the snapshot of expired
WAITING_CODE reservations, then run the loop body on each. -/
def check_expired_reservations_pass (db : DB) (now : Nat) : DB × List Notif :=
  let expired_reservations := db.reservations.filter (sweepCond now)
  expired_reservations.foldl (fun acc r => expire_one acc.1 r acc.2) (db, [])

/-! ## User-initiated change operations (src/main.py) -/

/-- `change_number_handler` (main.py lines 2444-2506): on a WAITING_CODE
reservation, release the current number, pick another AVAILABLE number of the
same (service, country) pair and move the reservation onto it; if none
exists, restore the original number to RESERVED.  A reservation that is
missing or no longer WAITING_CODE is left untouched; if the reservation's
number row is missing the handler raises before any commit, so the session is
rolled back and the store is unchanged. -/
def change_number (db : DB) (reservation_id : Nat) (now : Nat) : DB :=
  match findReservation db reservation_id with
  | none => db
  | some reservation =>
    if reservation.status ≠ ReservationStatus.WAITING_CODE then db
    else
      match findNumber db reservation.number_id with
      | none => db
      | some current_number =>
        let dbRel := updateNumberById db current_number.id clearNumber
        match dbRel.numbers.find? (fun n =>
            decide (n.service_id = reservation.service_id) &&
            decide (n.country_code = current_number.country_code) &&
            decide (n.status = NumberStatus.AVAILABLE) &&
            decide (n.id ≠ current_number.id)) with
        | none =>
          updateNumberById dbRel current_number.id
            (reserveNumberFor reservation.user_id now reservation.expired_at)
        | some new_number =>
          let db1 := updateReservationById dbRel reservation_id
            (fun r => { r with number_id := new_number.id })
          updateNumberById db1 new_number.id
            (reserveNumberFor reservation.user_id now reservation.expired_at)

/-- `change_country_handler` (main.py lines 2508-2543): on any existing
reservation (the handler does not check its status), release its number to
AVAILABLE and delete the reservation row. -/
def change_country (db : DB) (reservation_id : Nat) : DB :=
  match findReservation db reservation_id with
  | none => db
  | some reservation =>
    let db1 :=
      match findNumber db reservation.number_id with
      | some current_number => updateNumberById db current_number.id clearNumber
      | none => db
    { db1 with reservations := db1.reservations.filter (fun r => decide (r.id ≠ reservation_id)) }

/-! ## The engine's operations as a step alphabet -/

/-- One engine operation on the shared store.  The three code-acquisition
producers all end in a `completeOp`; `Complete`'s own conditional transition
is their only serialization point, so any concurrent schedule is an
interleaving of these atomic steps. -/
inductive EngineOp
  | reserveOp (user_id service_id : Nat) (country_code : String) (now : Nat)
  | completeOp (reservation_id : Nat) (code : String) (now : Nat)
  | sweepOp (now : Nat)
  | changeNumberOp (reservation_id : Nat) (now : Nat)
  | changeCountryOp (reservation_id : Nat)
  deriving DecidableEq, Repr

/-- The store after one engine operation. -/
def applyOp (db : DB) : EngineOp → DB
  | .reserveOp u s cc now => (reserve_number db u s cc now).1
  | .completeOp rid code now => (complete_reservation_atomic db rid code now).db
  | .sweepOp now => (check_expired_reservations_pass db now).1
  | .changeNumberOp rid now => change_number db rid now
  | .changeCountryOp rid => change_country db rid

/-- The store after a sequence of engine operations. -/
def run (db : DB) (ops : List EngineOp) : DB :=
  ops.foldl applyOp db

/-! ## Extractor and message scanning (src/main.py)

The fixed regular expressions of main.py are rendered as explicit scanners
with `re.search` semantics: try every start position from the left, and at a
matching position capture the (greedy) maximal run of the capture class.
An arbitrary per-service fallback pattern coming from configuration is
modelled by an explicit search function passed in as a parameter. -/

def isAsciiDigit (c : Char) : Bool := ('0') ≤ c && c ≤ ('9')

def isHexDigitChar (c : Char) : Bool :=
  isAsciiDigit c || (('a') ≤ c && c ≤ ('f')) || (('A') ≤ c && c ≤ ('F'))

/-- The characters matched by `\s` for the ASCII texts at hand. -/
def isSpaceChar (c : Char) : Bool :=
  c == (' ') || c == ('\t') || c == ('\n') || c == ('\r') ||
  c == ('\x0b') || c == ('\x0c')

def lowerAsciiChar (c : Char) : Char :=
  if ('A') ≤ c && c ≤ ('Z') then Char.ofNat (c.toNat + 32) else c

/-- Consume the literal keyword (case-insensitively when `ci` is set) at the
head of the text, returning the rest on success. -/
def dropKeyword (ci : Bool) : List Char → List Char → Option (List Char)
  | [], cs => some cs
  | _ :: _, [] => none
  | k :: ks, c :: cs =>
    if (if ci then lowerAsciiChar c == k else c == k) then dropKeyword ci ks cs
    else none

/-- Maximal run of characters satisfying `p` at the head of the text. -/
def takeRun (p : Char → Bool) : List Char → List Char
  | [] => []
  | c :: cs => if p c then c :: takeRun p cs else []

/-- `re.search`: try the matcher at every start position, left to right. -/
def scanFor (f : List Char → Option String) : List Char → Option String
  | [] => f []
  | c :: cs =>
    match f (c :: cs) with
    | some r => some r
    | none => scanFor f cs

/-- Matcher for `ts:(\d+)` at one position. -/
def matchTsAt (cs : List Char) : Option String :=
  match dropKeyword false [('t'), ('s'), (':')] cs with
  | none => none
  | some rest =>
    let ds := takeRun isAsciiDigit rest
    if ds.isEmpty then none else some (String.mk ds)

/-- Matcher for `hmac:([a-fA-F0-9]+)` at one position. -/
def matchHmacAt (cs : List Char) : Option String :=
  match dropKeyword false [('h'), ('m'), ('a'), ('c'), (':')] cs with
  | none => none
  | some rest =>
    let ds := takeRun isHexDigitChar rest
    if ds.isEmpty then none else some (String.mk ds)

/-- Matcher for `to:(\+\d+)` at one position (case-sensitive, no whitespace,
as in `verify_hmac_signature`). -/
def matchToStrictAt (cs : List Char) : Option String :=
  match dropKeyword false [('t'), ('o'), (':')] cs with
  | some (('+') :: rest) =>
    let ds := takeRun isAsciiDigit rest
    if ds.isEmpty then none else some (String.mk (('+') :: ds))
  | _ => none

/-- Matcher for `code:(\d+)` at one position (case-sensitive, no whitespace,
as in `verify_hmac_signature`). -/
def matchCodeStrictAt (cs : List Char) : Option String :=
  match dropKeyword false [('c'), ('o'), ('d'), ('e'), (':')] cs with
  | none => none
  | some rest =>
    let ds := takeRun isAsciiDigit rest
    if ds.isEmpty then none else some (String.mk ds)

/-- Matcher for `to:\s*(\+\d+)` with `re.IGNORECASE`, as in
`extract_number_and_code`. -/
def matchToLooseAt (cs : List Char) : Option String :=
  match dropKeyword true [('t'), ('o'), (':')] cs with
  | none => none
  | some rest =>
    match rest.dropWhile isSpaceChar with
    | ('+') :: r2 =>
      let ds := takeRun isAsciiDigit r2
      if ds.isEmpty then none else some (String.mk (('+') :: ds))
    | _ => none

/-- Matcher for `code:\s*(\d+)` with `re.IGNORECASE`, as in
`extract_number_and_code`. -/
def matchCodeLooseAt (cs : List Char) : Option String :=
  match dropKeyword true [('c'), ('o'), ('d'), ('e'), (':')] cs with
  | none => none
  | some rest =>
    let ds := takeRun isAsciiDigit (rest.dropWhile isSpaceChar)
    if ds.isEmpty then none else some (String.mk ds)

def findTsField (s : String) : Option String := scanFor matchTsAt s.toList

def findHmacField (s : String) : Option String := scanFor matchHmacAt s.toList

def findToStrict (s : String) : Option String := scanFor matchToStrictAt s.toList

def findCodeStrict (s : String) : Option String := scanFor matchCodeStrictAt s.toList

def findToLoose (s : String) : Option String := scanFor matchToLooseAt s.toList

def findCodeLoose (s : String) : Option String := scanFor matchCodeLooseAt s.toList

/-- `int(...)` on the digit string captured by `(\d+)`. -/
def digitsToNat (s : String) : Nat :=
  s.toList.foldl (fun a c => a * 10 + (c.toNat - 48)) 0

/-- `normalize_phone_number` (main.py lines 171-178): strip whitespace,
dashes and parentheses, then force a leading plus sign. -/
def normalize_phone_number (phone : String) : String :=
  let stripped := phone.toList.filter (fun c =>
    !(isSpaceChar c || c == ('-') || c == ('(') || c == (')')))
  match stripped with
  | ('+') :: _ => String.mk stripped
  | _ => String.mk (('+') :: stripped)

/-- `extract_number_and_code` (main.py lines 836-861): the phone is the
normalized capture of `to:\s*(\+\d+)` (IGNORECASE) when present; the code is
the capture of `code:\s*(\d+)` (IGNORECASE) when present, else whatever the
per-service fallback pattern finds (`reSearch pattern text` models
`re.search(regex_pattern, message_text)`).  Each element is None when its
search fails; the function itself never raises (its `except` clause returns
`(None, None)`). -/
def extract_number_and_code (reSearch : String → String → Option String)
    (message_text regex_pattern : String) : Option String × Option String :=
  let number := (findToLoose message_text).map normalize_phone_number
  let code :=
    match findCodeLoose message_text with
    | some c => some c
    | none => reSearch regex_pattern message_text
  (number, code)

/-! ## Security Verifier (src/main.py) -/

/-- `verify_hmac_signature` (main.py lines 750-790), parameterized by the
HMAC-SHA256 hex primitive (`hmacSha256Hex secret payload` models
`hmac.new(secret.encode(), payload.encode(), hashlib.sha256).hexdigest()`).
Rejects when the hmac or ts field is absent, when `|now - ts|` exceeds the
window, or when the number or code field is absent; otherwise accepts exactly
when the recomputed digest equals the supplied one (`hmac.compare_digest`).
Any exception in the original is caught and turned into rejection; the model
is total, so that branch is the constant False it produces. -/
def verify_hmac_signature (hmacSha256Hex : String → String → String)
    (now windowMin : Nat) (message_text secret_token : String) : Bool :=
  match findHmacField message_text, findTsField message_text with
  | some received_hmac, some tsStr =>
    let timestamp := digitsToNat tsStr
    if ((now : Int) - (timestamp : Int)).natAbs > windowMin * 60 then false
    else
      match findToStrict message_text, findCodeStrict message_text with
      | some number, some code =>
        decide (hmacSha256Hex secret_token
          (number ++ ("|") ++ code ++ ("|") ++ toString timestamp) = received_hmac)
      | _, _ => false
  | _, _ => false

/-- Result of `verify_message_security`: the `valid` flag and reason code. -/
structure SecCheck where
  valid : Bool
  reason : String
  deriving DecidableEq, Repr

/-- `verify_message_security` (main.py lines 2019-2047).  TOKEN_ONLY accepts
unconditionally; ADMIN_ONLY consults the external membership lookup
(`isAdminInChat sender chat` models `is_user_admin_in_chat`); HMAC rejects
when no secret is configured (NULL or empty, both falsy in Python) and
otherwise defers to `verify_hmac_signature`. -/
def verify_message_security (isAdminInChat : String → String → Bool)
    (hmacSha256Hex : String → String → String) (now windowMin : Nat)
    (service_group : ServiceGroupRow) (message_text sender_id group_chat_id : String) :
    SecCheck :=
  match service_group.security_mode with
  | SecurityMode.TOKEN_ONLY => ⟨true, ("simplified_security")⟩
  | SecurityMode.ADMIN_ONLY =>
    if isAdminInChat sender_id group_chat_id then ⟨true, ("admin_verified")⟩
    else ⟨false, ("not_admin")⟩
  | SecurityMode.HMAC =>
    match service_group.secret_token with
    | none => ⟨false, ("no_secret_configured")⟩
    | some secret =>
      if secret = ("") then ⟨false, ("no_secret_configured")⟩
      else if verify_hmac_signature hmacSha256Hex now windowMin message_text secret then
        ⟨true, ("hmac_verified")⟩
      else ⟨false, ("invalid_hmac")⟩

/-! ## Code Acquisition Scheduler (src/main.py) -/

/-- `search_code_in_groups` (main.py lines 180-225).  When the service has no
active groups the function returns None after a warning.  Otherwise the first
loop iteration builds the recent-messages query, which references the column
`ProviderMessage.created_at`; the ProviderMessage model defines no such
attribute (its timestamp column is `received_at`), so the access raises
AttributeError, the surrounding `except Exception` swallows it, and the
function returns None.  Every path therefore yields None. -/
def search_code_in_groups (db : DB) (phone_number : String) (service_id : Nat) :
    Option String :=
  let service_groups := db.service_groups.filter (fun g =>
    decide (g.service_id = service_id) && g.active)
  if service_groups.isEmpty then
    none
  else
    none

/-- Result of one cycle of the per-reservation watcher loop: the store after
the cycle, whether a completion succeeded, and whether the coroutine returns
(stops looping) this cycle. -/
structure CycleResult where
  db : DB
  completed : Bool
  stop : Bool
  deriving DecidableEq, Repr

/-- One iteration of the `auto_search_for_code` loop (main.py lines 235-287):
re-check the reservation is still WAITING_CODE (stop if not), load its number
(stop if missing), search the stored group messages for a code, and on a
found code call `complete_reservation_atomic`, stopping on success. -/
def auto_search_cycle (db : DB) (reservation_id : Nat) (now : Nat) : CycleResult :=
  match db.reservations.find? (fun r =>
      decide (r.id = reservation_id) &&
      decide (r.status = ReservationStatus.WAITING_CODE)) with
  | none => ⟨db, false, true⟩
  | some reservation =>
    match findNumber db reservation.number_id with
    | none => ⟨db, false, true⟩
    | some number =>
      match search_code_in_groups db number.phone_number number.service_id with
      | none => ⟨db, false, false⟩
      | some code =>
        let res := complete_reservation_atomic db reservation_id code now
        ⟨res.db, res.ok, res.ok⟩

/-- `extract_code_from_message` (main.py lines 872-891): look the service up
by name, pick the per-service provider regex (default `\b\d\x7b5,6\x7d\b`),
and search the text with it. -/
def extract_code_from_message (reSearch : String → String → Option String)
    (db : DB) (text service_name : String) : Option String :=
  match db.services.find? (fun s => decide (s.name = service_name)) with
  | none => none
  | some service =>
    let pattern :=
      match db.service_provider_maps.find? (fun m => decide (m.service_id = service.id)) with
      | none => ("\\b\\d\x7b5,6\x7d\\b")
      | some mapping => mapping.regex_pattern
    reSearch pattern text

/-- A message object fetched from a provider endpoint: the fields of the
`{to, text, service}` JSON objects that `process_single_message` reads. -/
structure ProviderApiMessage where
  toNumber : String
  text : String
  service : String
  deriving DecidableEq, Repr

/-- Case-insensitive substring test, for the service inference
(`'whatsapp' in text.lower()`). -/
def containsLowered (text : String) (needle : List Char) : Bool :=
  let lowered := text.toList.map lowerAsciiChar
  (List.range (lowered.length + 1)).any (fun i =>
    needle.isPrefixOf (lowered.drop i))

/-- `process_single_message` (main.py lines 1270-1326): normalize the target
number, infer the service name from the text when absent, extract a code,
resolve the service, a RESERVED number and a WAITING_CODE reservation (each
missing link returns with no effect), then store the message and complete the
reservation.  Storing the message constructs
`ProviderMessage(provider_id=provider.id, raw_payload=...)`; `provider_id` is
not an attribute of the ProviderMessage model, so the declarative constructor
raises TypeError there — before `complete_reservation_atomic` is reached —
and the exception propagates out of the function (it has no `except` clause).
The error outcome carries that exception. -/
def process_single_message (reSearch : String → String → Option String)
    (db : DB) (message : ProviderApiMessage) : Except String (DB × Bool) :=
  let to_number := normalize_phone_number message.toNumber
  let text := message.text
  let service_name :=
    if message.service ≠ ("") then message.service
    else if containsLowered text [('w'), ('h'), ('a'), ('t'), ('s'), ('a'), ('p'), ('p')] then
      ("WhatsApp")
    else if containsLowered text [('t'), ('e'), ('l'), ('e'), ('g'), ('r'), ('a'), ('m')] then
      ("Telegram")
    else ("")
  match extract_code_from_message reSearch db text service_name with
  | none => Except.ok (db, false)
  | some _code =>
    match db.services.find? (fun s => decide (s.name = service_name)) with
    | none => Except.ok (db, false)
    | some service =>
      match db.numbers.find? (fun n =>
          decide (n.phone_number = to_number) && decide (n.service_id = service.id) &&
          decide (n.status = NumberStatus.RESERVED)) with
      | none => Except.ok (db, false)
      | some number =>
        match db.reservations.find? (fun r =>
            decide (r.number_id = number.id) &&
            decide (r.status = ReservationStatus.WAITING_CODE)) with
        | none => Except.ok (db, false)
        | some _reservation =>
          Except.error ("TypeError: provider_id is an invalid keyword argument for ProviderMessage")

/-! ## Invariants of the store -/

/-- Primary-key uniqueness of a table under a key projection. -/
def UniqueIds {α : Type} (key : α → Nat) (l : List α) : Prop :=
  l.Pairwise (fun a b => key a ≠ key b)

instance {α : Type} (key : α → Nat) (l : List α) : Decidable (UniqueIds key l) :=
  inferInstanceAs (Decidable (l.Pairwise (fun a b => key a ≠ key b)))

/-- Some WAITING_CODE reservation references the number. -/
def waitingRef (db : DB) (nid : Nat) : Prop :=
  ∃ r ∈ db.reservations, r.number_id = nid ∧ r.status = ReservationStatus.WAITING_CODE

/-- Some COMPLETED reservation references the number. -/
def completedRef (db : DB) (nid : Nat) : Prop :=
  ∃ r ∈ db.reservations, r.number_id = nid ∧ r.status = ReservationStatus.COMPLETED

/-- Some reservation currently owns the number (it references it while in a
non-final-released state, i.e. WAITING_CODE or COMPLETED). -/
def ownerRef (db : DB) (nid : Nat) : Prop :=
  ∃ r ∈ db.reservations, r.number_id = nid ∧
    (r.status = ReservationStatus.WAITING_CODE ∨ r.status = ReservationStatus.COMPLETED)

/-- The consistency property of the spec: for every number,
RESERVED holds iff some WAITING_CODE reservation references it, USED holds
iff a COMPLETED reservation references it, and AVAILABLE holds iff no
reservation currently owns it. -/
def StatusConsistent (db : DB) : Prop :=
  ∀ n ∈ db.numbers,
    (n.status = NumberStatus.RESERVED ↔ waitingRef db n.id) ∧
    (n.status = NumberStatus.USED ↔ completedRef db n.id) ∧
    (n.status = NumberStatus.AVAILABLE ↔ ¬ ownerRef db n.id)

/-- The full inductive invariant: primary keys are unique, reservation ids
stay below the autoincrement counter, each number has at most one owning
reservation, no number is DELETED (the engine never produces that status),
and the spec's status-consistency property holds. -/
def Consistent (db : DB) : Prop :=
  UniqueIds (fun r => r.id) db.reservations ∧
  UniqueIds (fun n => n.id) db.numbers ∧
  (∀ r ∈ db.reservations, r.id < db.next_reservation_id) ∧
  (∀ r1 ∈ db.reservations, ∀ r2 ∈ db.reservations,
    r1.number_id = r2.number_id →
    (r1.status = ReservationStatus.WAITING_CODE ∨ r1.status = ReservationStatus.COMPLETED) →
    (r2.status = ReservationStatus.WAITING_CODE ∨ r2.status = ReservationStatus.COMPLETED) →
    r1 = r2) ∧
  (∀ n ∈ db.numbers, n.status ≠ NumberStatus.DELETED) ∧
  StatusConsistent db

/-- Whether `complete_reservation_atomic db rid _ _` would take the
insufficient-balance branch: the reservation is found and WAITING_CODE, its
user, service and number rows exist, and the balance is below the price. -/
def hitsInsufficient (db : DB) (rid : Nat) : Bool :=
  match findReservation db rid with
  | none => false
  | some r =>
    decide (r.status = ReservationStatus.WAITING_CODE) &&
    (match findUser db r.user_id, findService db r.service_id, findNumber db r.number_id with
     | some u, some s, some n => decide (u.balance < price_of n s)
     | _, _, _ => false)

/-- A two-reservation store exercising the sweep: one COMPLETED row and one
WAITING_CODE row whose expiry has passed. -/
def c7db : DB :=
  { users := [], services := [],
    numbers := [],
    reservations :=
      [{ id := 1, user_id := 1, service_id := 1, number_id := 1,
         status := ReservationStatus.COMPLETED, created_at := some 0,
         completed_at := some 5, expired_at := some 10, code_value := some ("4821") },
       { id := 2, user_id := 1, service_id := 1, number_id := 2,
         status := ReservationStatus.WAITING_CODE, created_at := some 0,
         completed_at := none, expired_at := some 10, code_value := none }],
    transactions := [], service_groups := [], service_provider_maps := [],
    provider_messages := [], next_reservation_id := 3 }

/-- The user, service, number and WAITING_CODE reservation of the running
example: balance 20, price 10, one RESERVED number. -/
def exUser : UserRow := { id := 1, telegram_id := ("111"), balance := 20 }

def exService : ServiceRow := { id := 1, name := ("WhatsApp"), default_price := 10 }

def exNumber : NumberRow :=
  { id := 1, service_id := 1, country_code := ("+20"),
    phone_number := ("+20112763404"), status := NumberStatus.RESERVED,
    reserved_by_user_id := some 1, reserved_at := some 50,
    expires_at := some 1250, code_received_at := none, price_override := none }

def exReservation : ReservationRow :=
  { id := 1, user_id := 1, service_id := 1, number_id := 1,
    status := ReservationStatus.WAITING_CODE, created_at := some 50,
    completed_at := none, expired_at := some 1250, code_value := none }

def exDB : DB :=
  { users := [exUser], services := [exService], numbers := [exNumber],
    reservations := [exReservation], transactions := [], service_groups := [],
    service_provider_maps := [], provider_messages := [],
    next_reservation_id := 2 }

def exUserBroke : UserRow := { id := 1, telegram_id := ("111"), balance := 3 }

def exDBBroke : DB :=
  { users := [exUserBroke], services := [exService], numbers := [exNumber],
    reservations := [exReservation], transactions := [], service_groups := [],
    service_provider_maps := [], provider_messages := [],
    next_reservation_id := 2 }

/-- A stale EXPIRED reservation still recording number 1, which has since
been re-reserved: number 1 is RESERVED again and owned by the newer
WAITING_CODE reservation 2. -/
def exReservationStale : ReservationRow :=
  { id := 1, user_id := 1, service_id := 1, number_id := 1,
    status := ReservationStatus.EXPIRED, created_at := some 50,
    completed_at := none, expired_at := some 1250, code_value := none }

def exReservationNew : ReservationRow :=
  { id := 2, user_id := 1, service_id := 1, number_id := 1,
    status := ReservationStatus.WAITING_CODE, created_at := some 2000,
    completed_at := none, expired_at := some 3200, code_value := none }

def exDBStale : DB :=
  { users := [exUser], services := [exService], numbers := [exNumber],
    reservations := [exReservationStale, exReservationNew], transactions := [],
    service_groups := [], service_provider_maps := [], provider_messages := [],
    next_reservation_id := 3 }

/-- Whether the operation is a `Complete` call on this reservation id. -/
def isCompleteOf (rid : Nat) : EngineOp → Bool
  | .completeOp r _ _ => decide (r = rid)
  | _ => false

/-- Whether the operation, applied to this store, is a `Complete` call that
succeeds (takes the WAITING_CODE → COMPLETED transition and creates the
PURCHASE transaction). -/
def successAt (db : DB) : EngineOp → Bool
  | .completeOp rid code now => (complete_reservation_atomic db rid code now).ok
  | _ => false

/-- Along a trace of operations, the number of successful `Complete` calls on
the given reservation id. -/
def successesFor (rid : Nat) : DB → List EngineOp → Nat
  | _, [] => 0
  | db, op :: ops =>
    (if isCompleteOf rid op && successAt db op then 1 else 0) +
      successesFor rid (applyOp db op) ops

/-- Along a trace of operations, the number of successful `Complete` calls. -/
def totalSuccesses : DB → List EngineOp → Nat
  | _, [] => 0
  | db, op :: ops =>
    (if successAt db op then 1 else 0) + totalSuccesses (applyOp db op) ops

/-- Number of PURCHASE rows in the transaction ledger. -/
def purchaseCount (db : DB) : Nat :=
  (db.transactions.filter (fun t => decide (t.type = TransactionType.PURCHASE))).length

/-- Reservation ids stay below the autoincrement counter. -/
def ResIdsBounded (db : DB) : Prop :=
  ∀ r ∈ db.reservations, r.id < db.next_reservation_id

instance (db : DB) : Decidable (ResIdsBounded db) :=
  inferInstanceAs (Decidable (∀ r ∈ db.reservations, r.id < db.next_reservation_id))

/-- The reservation id can never again be observed WAITING_CODE: no stored
row with that id is WAITING_CODE, and the counter has moved past it, so no
future insert reuses it. -/
def DeadFor (db : DB) (rid : Nat) : Prop :=
  (∀ row ∈ db.reservations, row.id = rid →
    row.status ≠ ReservationStatus.WAITING_CODE) ∧
  rid < db.next_reservation_id

/-- Row-origin property of one operation: the counter never decreases, and
every reservation row afterwards either keeps the id of a stored row (and was
WAITING_CODE before if it is WAITING_CODE now), or is a fresh insert whose id
is the old counter value, below the new one. -/
def OpSkeleton (db db' : DB) : Prop :=
  db.next_reservation_id ≤ db'.next_reservation_id ∧
  (∀ row ∈ db'.reservations,
    (∃ x ∈ db.reservations, x.id = row.id ∧
      (row.status = ReservationStatus.WAITING_CODE →
       x.status = ReservationStatus.WAITING_CODE)) ∨
    (db.next_reservation_id ≤ row.id ∧ row.id < db'.next_reservation_id))

instance (db : DB) (nid : Nat) : Decidable (waitingRef db nid) :=
  inferInstanceAs (Decidable (∃ r ∈ db.reservations,
    r.number_id = nid ∧ r.status = ReservationStatus.WAITING_CODE))

instance (db : DB) (nid : Nat) : Decidable (completedRef db nid) :=
  inferInstanceAs (Decidable (∃ r ∈ db.reservations,
    r.number_id = nid ∧ r.status = ReservationStatus.COMPLETED))

instance (db : DB) (nid : Nat) : Decidable (ownerRef db nid) :=
  inferInstanceAs (Decidable (∃ r ∈ db.reservations,
    r.number_id = nid ∧ (r.status = ReservationStatus.WAITING_CODE ∨
      r.status = ReservationStatus.COMPLETED)))

instance (db : DB) : Decidable (StatusConsistent db) :=
  inferInstanceAs (Decidable (∀ n ∈ db.numbers, _ ∧ _ ∧ _))

instance (db : DB) : Decidable (Consistent db) :=
  inferInstanceAs (Decidable (_ ∧ _ ∧ _ ∧ _ ∧ _ ∧ _))

/-- The pointwise reservation rewrite a sweep pass performs. -/
def sweepMarkF (db : DB) (now : Nat) (x : ReservationRow) : ReservationRow :=
  if x.id ∈ (db.reservations.filter (sweepCond now)).map (fun r => r.id)
  then expireMark x else x

/-- The pointwise number rewrite a sweep pass performs. -/
def sweepClearG (db : DB) (now : Nat) (n : NumberRow) : NumberRow :=
  if n.id ∈ (db.reservations.filter (sweepCond now)).map (fun r => r.number_id)
  then clearNumber n else n

/-! ## Generic lemmas about the list-based store -/

theorem uniqueIds_eq_of_key_eq {α : Type} {key : α → Nat} {l : List α}
    (h : UniqueIds key l) {a b : α} (ha : a ∈ l) (hb : b ∈ l)
    (hk : key a = key b) : a = b := by
  by_contra hne
  exact (h.forall (fun x y hxy => (Ne.symm hxy)) ha hb hne) hk

theorem find?_decide_id_some {l : List ReservationRow} {rid : Nat} {r : ReservationRow}
    (h : l.find? (fun x => decide (x.id = rid)) = some r) :
    r ∈ l ∧ r.id = rid := by
  refine ⟨List.mem_of_find?_eq_some h, ?_⟩
  have := List.find?_some h
  simpa using this

theorem find?_isSome_of_mem {α : Type} {p : α → Bool} {l : List α} {a : α}
    (ha : a ∈ l) (hp : p a = true) : ∃ b, l.find? p = some b := by
  have : (l.find? p).isSome := List.find?_isSome.mpr ⟨a, ha, hp⟩
  exact Option.isSome_iff_exists.mp this

@[simp] theorem expireMark_id (x : ReservationRow) : (expireMark x).id = x.id := rfl

@[simp] theorem expireMark_user_id (x : ReservationRow) :
    (expireMark x).user_id = x.user_id := rfl

@[simp] theorem expireMark_service_id (x : ReservationRow) :
    (expireMark x).service_id = x.service_id := rfl

@[simp] theorem expireMark_number_id (x : ReservationRow) :
    (expireMark x).number_id = x.number_id := rfl

@[simp] theorem expireMark_status (x : ReservationRow) :
    (expireMark x).status = ReservationStatus.EXPIRED := rfl

@[simp] theorem expireMark_expireMark (x : ReservationRow) :
    expireMark (expireMark x) = expireMark x := rfl

@[simp] theorem clearNumber_id (n : NumberRow) : (clearNumber n).id = n.id := rfl

@[simp] theorem clearNumber_service_id (n : NumberRow) :
    (clearNumber n).service_id = n.service_id := rfl

@[simp] theorem clearNumber_country_code (n : NumberRow) :
    (clearNumber n).country_code = n.country_code := rfl

@[simp] theorem clearNumber_status (n : NumberRow) :
    (clearNumber n).status = NumberStatus.AVAILABLE := rfl

@[simp] theorem clearNumber_clearNumber (n : NumberRow) :
    clearNumber (clearNumber n) = clearNumber n := rfl

@[simp] theorem reserveNumberFor_id (uid now : Nat) (exp : Option Nat) (n : NumberRow) :
    (reserveNumberFor uid now exp n).id = n.id := rfl

@[simp] theorem reserveNumberFor_service_id (uid now : Nat) (exp : Option Nat) (n : NumberRow) :
    (reserveNumberFor uid now exp n).service_id = n.service_id := rfl

@[simp] theorem reserveNumberFor_country_code (uid now : Nat) (exp : Option Nat) (n : NumberRow) :
    (reserveNumberFor uid now exp n).country_code = n.country_code := rfl

@[simp] theorem reserveNumberFor_status (uid now : Nat) (exp : Option Nat) (n : NumberRow) :
    (reserveNumberFor uid now exp n).status = NumberStatus.RESERVED := rfl

theorem map_if_id {α : Type} {p : α → Prop} [DecidablePred p] {f : α → α}
    {l : List α} (h : ∀ a ∈ l, ¬ p a) :
    l.map (fun a => if p a then f a else a) = l := by
  induction l with
  | nil => rfl
  | cons x xs ih =>
    simp only [List.map_cons, if_neg (h x (List.mem_cons_self x xs)),
      ih (fun a ha => h a (List.mem_cons_of_mem _ ha)), List.cons.injEq, and_self]

/-- The store after one iteration of the sweeper loop, as two pointwise
rewrites keyed by the snapshot row's primary keys. -/
theorem expire_one_fst (db : DB) (r : ReservationRow) (ns : List Notif) :
    (expire_one db r ns).1 =
      { db with
        reservations := db.reservations.map (fun x => if x.id = r.id then expireMark x else x),
        numbers := db.numbers.map (fun n => if n.id = r.number_id then clearNumber n else n) } := by
  have hnum :
      (match findNumber (updateReservationById db r.id expireMark) r.number_id with
        | some _ => updateNumberById (updateReservationById db r.id expireMark) r.number_id clearNumber
        | none => updateReservationById db r.id expireMark) =
      { db with
        reservations := db.reservations.map (fun x => if x.id = r.id then expireMark x else x),
        numbers := db.numbers.map (fun n => if n.id = r.number_id then clearNumber n else n) } := by
    rcases hN : findNumber (updateReservationById db r.id expireMark) r.number_id with _ | n0
    · have hall : ∀ n ∈ db.numbers, ¬ (n.id = r.number_id) := by
        intro n hn
        have := List.find?_eq_none.mp hN n hn
        simpa using this
      simp only [updateReservationById]
      rw [map_if_id hall]
    · rfl
  simp only [expire_one]
  rcases hU : findUser _ r.user_id with _ | u0
  · simpa using hnum
  · simpa using hnum

/-- The reservations-and-numbers effect of the whole sweeper loop over a
query snapshot `S`: every reservation whose id occurs in the snapshot is
marked EXPIRED, every number referenced from the snapshot is cleared, and
nothing else changes. -/
theorem fold_expire_fst (S : List ReservationRow) :
    ∀ (db : DB) (ns : List Notif),
      (S.foldl (fun acc r => expire_one acc.1 r acc.2) (db, ns)).1 =
        { db with
          reservations := db.reservations.map (fun x =>
            if x.id ∈ S.map (fun r => r.id) then expireMark x else x),
          numbers := db.numbers.map (fun n =>
            if n.id ∈ S.map (fun r => r.number_id) then clearNumber n else n) } := by
  induction S with
  | nil =>
    intro db ns
    simp [List.map_id']
  | cons r S ih =>
    intro db ns
    simp only [List.foldl_cons]
    have hE1 := expire_one_fst db r ns
    rw [ih (expire_one db r ns).1 (expire_one db r ns).2, hE1]
    simp only [List.map_cons, List.mem_cons]
    congr 1
    · rw [List.map_map]
      apply List.map_congr_left
      intro n _
      by_cases hn : n.id = r.number_id <;> simp [Function.comp, hn]
    · rw [List.map_map]
      apply List.map_congr_left
      intro x _
      by_cases hx : x.id = r.id <;> simp [Function.comp, hx]

/-- The whole sweeper pass, characterized pointwise. -/
theorem sweep_pass_fst (db : DB) (now : Nat) :
    (check_expired_reservations_pass db now).1 =
      { db with
        reservations := db.reservations.map (fun x =>
          if x.id ∈ (db.reservations.filter (sweepCond now)).map (fun r => r.id)
          then expireMark x else x),
        numbers := db.numbers.map (fun n =>
          if n.id ∈ (db.reservations.filter (sweepCond now)).map (fun r => r.number_id)
          then clearNumber n else n) } := by
  simp only [check_expired_reservations_pass]
  exact fold_expire_fst _ db []

theorem sweepCond_spec {now : Nat} {r : ReservationRow} (h : sweepCond now r = true) :
    r.status = ReservationStatus.WAITING_CODE ∧ ∃ t, r.expired_at = some t ∧ t < now := by
  unfold sweepCond at h
  rcases he : r.expired_at with _ | t <;> rw [he] at h <;> simp at h
  · exact ⟨h.1, t, rfl, h.2⟩

theorem id_mem_sweep_snapshot_iff {db : DB}
    (hU : UniqueIds (fun r => r.id) db.reservations) {now : Nat}
    {x : ReservationRow} (hx : x ∈ db.reservations) :
    (x.id ∈ (db.reservations.filter (sweepCond now)).map (fun r => r.id)) ↔
      sweepCond now x = true := by
  constructor
  · intro h
    obtain ⟨u, hu, hu_id⟩ := List.mem_map.mp h
    obtain ⟨hu_mem, hu_cond⟩ := List.mem_filter.mp hu
    have : u = x := uniqueIds_eq_of_key_eq hU hu_mem hx hu_id
    rwa [this] at hu_cond
  · intro h
    exact List.mem_map.mpr ⟨x, List.mem_filter.mpr ⟨hx, h⟩, rfl⟩

/-- Claim C7: the expiry sweep never transitions a reservation that has
already reached COMPLETED — a COMPLETED row (with its code and completion
fields) survives a sweep pass unchanged — and every row the sweep does
change was observed in status WAITING_CODE with its expiry before now (it is
that row marked EXPIRED). -/
theorem c7_sweep_never_touches_completed (db : DB) (now : Nat)
    (hU : UniqueIds (fun r => r.id) db.reservations) :
    (∀ v ∈ db.reservations, v.status = ReservationStatus.COMPLETED →
      v ∈ (check_expired_reservations_pass db now).1.reservations) ∧
    (∀ w ∈ (check_expired_reservations_pass db now).1.reservations,
      w ∉ db.reservations →
      ∃ u ∈ db.reservations, sweepCond now u = true ∧ w = expireMark u) := by
  rw [sweep_pass_fst]
  constructor
  · intro v hv hcomp
    refine List.mem_map.mpr ⟨v, hv, ?_⟩
    rw [if_neg]
    intro hmem
    have hcond := (id_mem_sweep_snapshot_iff hU hv).mp hmem
    have := (sweepCond_spec hcond).1
    rw [hcomp] at this
    exact ReservationStatus.noConfusion this
  · intro w hw hnot
    obtain ⟨x, hx, hfx⟩ := List.mem_map.mp hw
    by_cases hmem : x.id ∈ (db.reservations.filter (sweepCond now)).map (fun r => r.id)
    · rw [if_pos hmem] at hfx
      exact ⟨x, hx, (id_mem_sweep_snapshot_iff hU hx).mp hmem, hfx.symm⟩
    · rw [if_neg hmem] at hfx
      exact absurd (hfx ▸ hx) hnot

theorem c7_sweep_never_touches_completed_witness :
    (∀ v ∈ c7db.reservations, v.status = ReservationStatus.COMPLETED →
      v ∈ (check_expired_reservations_pass c7db 100).1.reservations) ∧
    (∀ w ∈ (check_expired_reservations_pass c7db 100).1.reservations,
      w ∉ c7db.reservations →
      ∃ u ∈ c7db.reservations, sweepCond 100 u = true ∧ w = expireMark u) :=
  c7_sweep_never_touches_completed c7db 100 (by decide)

theorem search_code_in_groups_eq_none (db : DB) (phone : String) (sid : Nat) :
    search_code_in_groups db phone sid = none := by
  simp [search_code_in_groups]

/-- Claim C5 (evidence for the code bug): the watcher can never find a code.
The recent-messages query of `search_code_in_groups` references the column
`ProviderMessage.created_at`, which is not an attribute of the ProviderMessage
model (first conjunct); the resulting AttributeError is swallowed by the
function's `except` clause, so the search returns None on every store — even
one holding a fresh audit message that contains the reserved phone and a
code — and hence a watcher cycle never extracts a code, never calls
`complete_reservation_atomic`, and never changes the store. -/
theorem c5_watcher_search_is_dead :
    (("created_at") ∉ providerMessageAttrs) ∧
    (∀ (db : DB) (phone : String) (sid : Nat),
      search_code_in_groups db phone sid = none) ∧
    (∀ (db : DB) (rid now : Nat),
      (auto_search_cycle db rid now).db = db ∧
      (auto_search_cycle db rid now).completed = false) := by
  refine ⟨by decide, search_code_in_groups_eq_none, ?_⟩
  intro db rid now
  rcases h1 : db.reservations.find? (fun r =>
      decide (r.id = rid) && decide (r.status = ReservationStatus.WAITING_CODE)) with _ | r
  · simp [auto_search_cycle, h1]
  · rcases h2 : findNumber db r.number_id with _ | n
    · simp [auto_search_cycle, h1, h2]
    · simp [auto_search_cycle, h1, h2, search_code_in_groups_eq_none]

/-- Claim C6 (evidence for the code bug): the batch poller never reaches
`complete_reservation_atomic`.  `provider_id` is not an attribute of the
ProviderMessage model (first conjunct), so on the full-resolution path —
exactly the messages the claim is about — `process_single_message` raises
TypeError while constructing the audit row, before any completion attempt;
on every other path it returns early with the store unchanged.  Hence the
function either errors out or returns the unchanged store with no completion
performed. -/
theorem c6_poller_never_attempts_completion :
    (("provider_id") ∉ providerMessageAttrs) ∧
    (∀ (reSearch : String → String → Option String) (db : DB)
        (msg : ProviderApiMessage),
      (∃ e, process_single_message reSearch db msg = Except.error e) ∨
      process_single_message reSearch db msg = Except.ok (db, false)) := by
  refine ⟨by decide, ?_⟩
  intro reSearch db msg
  unfold process_single_message
  dsimp only
  repeat' split
  all_goals first
    | exact Or.inr rfl
    | exact Or.inl ⟨_, rfl⟩

/-- Claim C9, counterexample: on the text `to:+123` with a fallback pattern
that matches nothing, `extract_number_and_code` returns the pair
`(some "+123", none)` — a pair in which exactly one of the two elements is
present — refuting the claim that either element missing forces `(nil, nil)`. -/
theorem c9_counterexample_one_sided_pair :
    (extract_number_and_code (fun _ _ => none) ("to:+123") ("x")).1 = some ("+123") ∧
    (extract_number_and_code (fun _ _ => none) ("to:+123") ("x")).2 = none := by
  decide

/-- Claim C9 as amended: the extractor is a total function (all failures are
represented as absence, never an exception), each element is reported absent
independently, and the pair `(nil, nil)` is returned when both the phone and
the code are missing: no `to:` match, no `code:` match, and nothing found by
the fallback pattern. -/
theorem c9_extractor_absent_when_both_missing
    (reSearch : String → String → Option String) (text pat : String)
    (h1 : findToLoose text = none) (h2 : findCodeLoose text = none)
    (h3 : reSearch pat text = none) :
    extract_number_and_code reSearch text pat = (none, none) := by
  unfold extract_number_and_code
  rw [h1, h2, h3]
  rfl

theorem c9_extractor_absent_when_both_missing_witness :
    findToLoose ("hello") = none ∧ findCodeLoose ("hello") = none ∧
    extract_number_and_code (fun _ _ => none) ("hello") ("x") = (none, none) :=
  ⟨by decide, by decide,
    c9_extractor_absent_when_both_missing (fun _ _ => none) ("hello") ("x")
      (by decide) (by decide) rfl⟩

/-- Claim C8: HMAC-mode verification accepts a message if and only if the
message carries an hmac and a ts field, `|now - ts|` is within the configured
window (minutes, default `MESSAGE_TIMESTAMP_WINDOW_MIN = 5`), the message
carries a number and a code field, and the HMAC-SHA256 hex digest of the
secret over `<number>|<code>|<timestamp>` equals the supplied digest.  In
particular a stale ts is rejected even with a correct digest, an in-window ts
with a wrong digest is rejected, and a missing field is rejected; exceptions
in the original are caught and rejected, which the total model renders as the
False branches.  The second conjunct: `verify_message_security` in HMAC mode
accepts exactly when a non-empty secret is configured and
`verify_hmac_signature` accepts. -/
theorem c8_hmac_accepts_iff :
    (∀ (hmacSha256Hex : String → String → String) (now windowMin : Nat)
        (msg secret : String),
      verify_hmac_signature hmacSha256Hex now windowMin msg secret = true ↔
        ∃ dgst ts,
          findHmacField msg = some dgst ∧ findTsField msg = some ts ∧
          ((now : Int) - (digitsToNat ts : Int)).natAbs ≤ windowMin * 60 ∧
          ∃ num code,
            findToStrict msg = some num ∧ findCodeStrict msg = some code ∧
            hmacSha256Hex secret
              (num ++ ("|") ++ code ++ ("|") ++ toString (digitsToNat ts)) = dgst) ∧
    (∀ (isAdminInChat : String → String → Bool)
        (hmacSha256Hex : String → String → String) (now windowMin : Nat)
        (sg : ServiceGroupRow) (secret msg sender chat : String),
      (verify_message_security isAdminInChat hmacSha256Hex now windowMin
          { sg with security_mode := SecurityMode.HMAC, secret_token := some secret }
          msg sender chat).valid =
        (decide (secret ≠ ("")) &&
          verify_hmac_signature hmacSha256Hex now windowMin msg secret)) := by
  constructor
  · intro hmacSha256Hex now windowMin msg secret
    unfold verify_hmac_signature
    rcases hH : findHmacField msg with _ | dgst
    · simp
    · rcases hT : findTsField msg with _ | ts
      · simp
      · dsimp only
        by_cases hw : ((now : Int) - (digitsToNat ts : Int)).natAbs > windowMin * 60
        · rw [if_pos hw]
          simp only [Bool.false_eq_true, false_iff]
          rintro ⟨d, t, hd, ht, hle, -⟩
          cases hd
          cases ht
          omega
        · rw [if_neg hw]
          have hle : ((now : Int) - (digitsToNat ts : Int)).natAbs ≤ windowMin * 60 :=
            not_lt.mp hw
          rcases hN : findToStrict msg with _ | num
          · simp
          · rcases hC : findCodeStrict msg with _ | code
            · simp
            · simp [decide_eq_true_eq, hle]
  · intro isAdminInChat hmacSha256Hex now windowMin sg secret msg sender chat
    unfold verify_message_security
    by_cases hs : secret = ("")
    · simp [hs]
    · rcases hv : verify_hmac_signature hmacSha256Hex now windowMin msg secret with _ | _
      · simp [hs, hv]
      · simp [hs, hv]

theorem find?_key_some {α : Type} {key : α → Nat} {l : List α} {k : Nat} {a : α}
    (h : l.find? (fun x => decide (key x = k)) = some a) : a ∈ l ∧ key a = k := by
  refine ⟨List.mem_of_find?_eq_some h, ?_⟩
  have := List.find?_some h
  simpa using this

/-- `Complete` on a reservation id whose rows are all non-WAITING_CODE (or
absent) is the identity: it returns False, changes nothing and sends
nothing — the AlreadyFinal / NotFound no-op. -/
theorem complete_noop_of_not_waiting {db : DB} {rid : Nat}
    (h : ∀ row ∈ db.reservations, row.id = rid →
      row.status ≠ ReservationStatus.WAITING_CODE)
    (code : String) (now : Nat) :
    complete_reservation_atomic db rid code now = ⟨db, false, []⟩ := by
  rcases hF : findReservation db rid with _ | r
  · simp [complete_reservation_atomic, hF]
  · obtain ⟨hmem, hid⟩ := find?_key_some hF
    simp [complete_reservation_atomic, hF, h r hmem hid]

/-- The insufficient-balance branch of `Complete`, characterized: the only
state change is the reservation flipped to EXPIRED, the return value is
False, and the single notification tells the user the price and balance. -/
theorem complete_insufficient_char {db : DB} {rid : Nat} {r : ReservationRow}
    {u : UserRow} {s : ServiceRow} {n : NumberRow}
    (hR : findReservation db rid = some r)
    (hW : r.status = ReservationStatus.WAITING_CODE)
    (hU : findUser db r.user_id = some u)
    (hS : findService db r.service_id = some s)
    (hN : findNumber db r.number_id = some n)
    (hB : u.balance < price_of n s) (code : String) (now : Nat) :
    complete_reservation_atomic db rid code now =
      ⟨updateReservationById db rid expireMark, false,
       [Notif.insufficientBalance u.telegram_id (price_of n s) u.balance]⟩ := by
  simp [complete_reservation_atomic, hR, hW, hU, hS, hN, hB]

/-- The success branch of `Complete`, characterized field by field: the user
is debited by the price, the reservation is flipped to COMPLETED carrying the
code and timestamp, the number is flipped to USED, exactly one PURCHASE
transaction is appended, every other table and the id counter are untouched,
and True is returned. -/
theorem complete_success_parts {db : DB} {rid : Nat} {r : ReservationRow}
    {u : UserRow} {s : ServiceRow} {n : NumberRow}
    (hR : findReservation db rid = some r)
    (hW : r.status = ReservationStatus.WAITING_CODE)
    (hU : findUser db r.user_id = some u)
    (hS : findService db r.service_id = some s)
    (hN : findNumber db r.number_id = some n)
    (hB : ¬ u.balance < price_of n s) (code : String) (now : Nat) :
    (complete_reservation_atomic db rid code now).ok = true ∧
    (complete_reservation_atomic db rid code now).db.users =
      db.users.map (fun x => if x.id = u.id then
        { x with balance := x.balance - price_of n s } else x) ∧
    (complete_reservation_atomic db rid code now).db.reservations =
      db.reservations.map (fun x => if x.id = rid then
        { x with status := ReservationStatus.COMPLETED,
                 code_value := some code, completed_at := some now } else x) ∧
    (complete_reservation_atomic db rid code now).db.numbers =
      db.numbers.map (fun x => if x.id = n.id then
        { x with status := NumberStatus.USED, code_received_at := some now } else x) ∧
    (complete_reservation_atomic db rid code now).db.transactions =
      db.transactions ++
        [{ user_id := u.id, type := TransactionType.PURCHASE,
           amount := price_of n s,
           reason := s.name ++ (" ") ++ n.phone_number }] ∧
    (complete_reservation_atomic db rid code now).db.services = db.services ∧
    (complete_reservation_atomic db rid code now).db.service_groups = db.service_groups ∧
    (complete_reservation_atomic db rid code now).db.service_provider_maps =
      db.service_provider_maps ∧
    (complete_reservation_atomic db rid code now).db.provider_messages =
      db.provider_messages ∧
    (complete_reservation_atomic db rid code now).db.next_reservation_id =
      db.next_reservation_id := by
  simp [complete_reservation_atomic, hR, hW, hU, hS, hN, hB,
    updateUserById, updateReservationById, updateNumberById]

/-- A first call of `Complete` that observes WAITING_CODE (with the user,
service and number rows present) transitions the reservation out of
WAITING_CODE: afterwards every row with that id is COMPLETED or EXPIRED. -/
theorem complete_transitioned {db : DB} {rid : Nat} {r : ReservationRow}
    {u : UserRow} {s : ServiceRow} {n : NumberRow}
    (hR : findReservation db rid = some r)
    (hW : r.status = ReservationStatus.WAITING_CODE)
    (hU : findUser db r.user_id = some u)
    (hS : findService db r.service_id = some s)
    (hN : findNumber db r.number_id = some n) (code : String) (now : Nat) :
    ∀ row ∈ (complete_reservation_atomic db rid code now).db.reservations,
      row.id = rid →
      (row.status = ReservationStatus.COMPLETED ∨
       row.status = ReservationStatus.EXPIRED) := by
  by_cases hB : u.balance < price_of n s
  · rw [complete_insufficient_char hR hW hU hS hN hB code now]
    intro row hrow hid
    simp only [updateReservationById] at hrow
    obtain ⟨x, hx, hfx⟩ := List.mem_map.mp hrow
    by_cases hxid : x.id = rid
    · rw [if_pos hxid] at hfx
      right
      rw [← hfx]
      rfl
    · rw [if_neg hxid] at hfx
      rw [← hfx] at hid
      exact absurd hid hxid
  · have hres := (complete_success_parts hR hW hU hS hN hB code now).2.2.1
    rw [hres]
    intro row hrow hid
    obtain ⟨x, hx, hfx⟩ := List.mem_map.mp hrow
    by_cases hxid : x.id = rid
    · rw [if_pos hxid] at hfx
      left
      rw [← hfx]
    · rw [if_neg hxid] at hfx
      rw [← hfx] at hid
      exact absurd hid hxid

/-- Claim C2: calling `Complete` twice with the same reservation id yields
exactly one state transition.  A first call that observes WAITING_CODE (with
its user, service and number rows present) leaves every row of that id in
COMPLETED or EXPIRED, and the second call then observes the now-final status
and is an exact no-op: it returns the unchanged store, the False return
value, and no notification — the AlreadyFinal outcome. -/
theorem c2_complete_twice_one_transition (db : DB) (rid : Nat)
    (code now code2 now2 : _) {r : ReservationRow} {u : UserRow}
    {s : ServiceRow} {n : NumberRow}
    (hR : findReservation db rid = some r)
    (hW : r.status = ReservationStatus.WAITING_CODE)
    (hU : findUser db r.user_id = some u)
    (hS : findService db r.service_id = some s)
    (hN : findNumber db r.number_id = some n) :
    (∀ row ∈ (complete_reservation_atomic db rid code now).db.reservations,
      row.id = rid →
      (row.status = ReservationStatus.COMPLETED ∨
       row.status = ReservationStatus.EXPIRED)) ∧
    complete_reservation_atomic
        (complete_reservation_atomic db rid code now).db rid code2 now2 =
      ⟨(complete_reservation_atomic db rid code now).db, false, []⟩ := by
  have htrans := complete_transitioned hR hW hU hS hN code now
  refine ⟨htrans, complete_noop_of_not_waiting ?_ code2 now2⟩
  intro row hrow hid
  rcases htrans row hrow hid with h | h <;> rw [h] <;> intro hc <;>
    exact ReservationStatus.noConfusion hc

theorem c2_complete_twice_one_transition_witness :
    (∀ row ∈ (complete_reservation_atomic exDB 1 ("4821") 100).db.reservations,
      row.id = 1 →
      (row.status = ReservationStatus.COMPLETED ∨
       row.status = ReservationStatus.EXPIRED)) ∧
    complete_reservation_atomic
        (complete_reservation_atomic exDB 1 ("4821") 100).db 1 ("9999") 200 =
      ⟨(complete_reservation_atomic exDB 1 ("4821") 100).db, false, []⟩ :=
  c2_complete_twice_one_transition exDB 1 ("4821") 100 ("9999") 200
    (r := exReservation) (u := exUser) (s := exService) (n := exNumber)
    (by decide) (by decide) (by decide) (by decide) (by decide)

/-- Claim C4: when the balance is strictly below the computed price
(number-specific override if set, else the service default), `Complete`
transitions the reservation to EXPIRED, returns the failure (False, the
InsufficientBalance outcome), notifies the user, and performs no debit: the
users table and the transaction ledger are untouched (no debit, no
Transaction row), the numbers table is untouched, every row of that
reservation id is EXPIRED, and the failure is terminal — any later `Complete`
on that reservation is an exact no-op. -/
theorem c4_insufficient_balance_terminal (db : DB) (rid : Nat)
    (code : String) (now : Nat) {r : ReservationRow} {u : UserRow}
    {s : ServiceRow} {n : NumberRow}
    (hR : findReservation db rid = some r)
    (hW : r.status = ReservationStatus.WAITING_CODE)
    (hU : findUser db r.user_id = some u)
    (hS : findService db r.service_id = some s)
    (hN : findNumber db r.number_id = some n)
    (hB : u.balance < price_of n s) :
    complete_reservation_atomic db rid code now =
      ⟨updateReservationById db rid expireMark, false,
       [Notif.insufficientBalance u.telegram_id (price_of n s) u.balance]⟩ ∧
    (updateReservationById db rid expireMark).users = db.users ∧
    (updateReservationById db rid expireMark).transactions = db.transactions ∧
    (updateReservationById db rid expireMark).numbers = db.numbers ∧
    (∀ row ∈ (updateReservationById db rid expireMark).reservations,
      row.id = rid → row.status = ReservationStatus.EXPIRED) ∧
    (∀ (code2 : String) (now2 : Nat),
      complete_reservation_atomic (updateReservationById db rid expireMark) rid code2 now2 =
        ⟨updateReservationById db rid expireMark, false, []⟩) := by
  have hrows : ∀ row ∈ (updateReservationById db rid expireMark).reservations,
      row.id = rid → row.status = ReservationStatus.EXPIRED := by
    intro row hrow hid
    simp only [updateReservationById] at hrow
    obtain ⟨x, hx, hfx⟩ := List.mem_map.mp hrow
    by_cases hxid : x.id = rid
    · rw [if_pos hxid] at hfx
      rw [← hfx]
      rfl
    · rw [if_neg hxid] at hfx
      rw [← hfx] at hid
      exact absurd hid hxid
  refine ⟨complete_insufficient_char hR hW hU hS hN hB code now, rfl, rfl, rfl, hrows, ?_⟩
  intro code2 now2
  refine complete_noop_of_not_waiting ?_ code2 now2
  intro row hrow hid
  rw [hrows row hrow hid]
  intro hc
  exact ReservationStatus.noConfusion hc

theorem c4_insufficient_balance_terminal_witness :
    complete_reservation_atomic exDBBroke 1 ("4821") 100 =
      ⟨updateReservationById exDBBroke 1 expireMark, false,
       [Notif.insufficientBalance exUserBroke.telegram_id
          (price_of exNumber exService) exUserBroke.balance]⟩ ∧
    (updateReservationById exDBBroke 1 expireMark).users = exDBBroke.users ∧
    (updateReservationById exDBBroke 1 expireMark).transactions = exDBBroke.transactions ∧
    (updateReservationById exDBBroke 1 expireMark).numbers = exDBBroke.numbers ∧
    (∀ row ∈ (updateReservationById exDBBroke 1 expireMark).reservations,
      row.id = 1 → row.status = ReservationStatus.EXPIRED) ∧
    (∀ (code2 : String) (now2 : Nat),
      complete_reservation_atomic (updateReservationById exDBBroke 1 expireMark) 1 code2 now2 =
        ⟨updateReservationById exDBBroke 1 expireMark, false, []⟩) :=
  c4_insufficient_balance_terminal exDBBroke 1 ("4821") 100
    (r := exReservation) (u := exUserBroke) (s := exService) (n := exNumber)
    (by decide) (by decide) (by decide) (by decide) (by decide) (by decide)

/-- One sweep pass neither touches a number row that no WAITING_CODE
reservation references, nor creates a WAITING_CODE reference to it. -/
theorem sweep_keeps_unreferenced_number {d : DB} {n : NumberRow} (t : Nat)
    (h1 : findNumber d n.id = some n)
    (h2 : ∀ r2 ∈ d.reservations, r2.status = ReservationStatus.WAITING_CODE →
      r2.number_id ≠ n.id) :
    findNumber (check_expired_reservations_pass d t).1 n.id = some n ∧
    (∀ r2 ∈ (check_expired_reservations_pass d t).1.reservations,
      r2.status = ReservationStatus.WAITING_CODE → r2.number_id ≠ n.id) := by
  rw [sweep_pass_fst]
  constructor
  · show (d.numbers.map _).find? _ = some n
    rw [List.find?_map]
    have hp : ((fun x => decide (x.id = n.id)) ∘ (fun x =>
        if x.id ∈ (d.reservations.filter (sweepCond t)).map (fun r => r.number_id)
        then clearNumber x else x)) = (fun x => decide (x.id = n.id)) := by
      funext x
      by_cases hc : x.id ∈ (d.reservations.filter (sweepCond t)).map (fun r => r.number_id) <;>
        simp [Function.comp, hc]
    rw [hp]
    show Option.map _ (findNumber d n.id) = some n
    rw [h1]
    have hnc : n.id ∉ (d.reservations.filter (sweepCond t)).map (fun r => r.number_id) := by
      intro hmem
      obtain ⟨uu, huu, huid⟩ := List.mem_map.mp hmem
      obtain ⟨humem, hucond⟩ := List.mem_filter.mp huu
      exact h2 uu humem (sweepCond_spec hucond).1 huid
    simp [hnc]
  · intro r2 hr2 hst
    obtain ⟨x, hx, hfx⟩ := List.mem_map.mp hr2
    by_cases hc : x.id ∈ (d.reservations.filter (sweepCond t)).map (fun r => r.id)
    · rw [if_pos hc] at hfx
      rw [← hfx] at hst
      exact ReservationStatus.noConfusion hst
    · rw [if_neg hc] at hfx
      rw [← hfx]
      exact h2 x hx (hfx ▸ hst)

/-- Claim C10: when `Complete` fails with insufficient balance, the numbers
table — and in particular the reserved Number row — is left entirely
unchanged (it keeps its RESERVED status, owner and expiry fields), and since
the reservation simultaneously leaves WAITING_CODE while no other
WAITING_CODE reservation references that Number, every subsequent sequence of
expiry-sweep passes still finds that exact unchanged row: no sweep ever
returns it to AVAILABLE. -/
theorem c10_insufficient_leaves_number_reserved (db : DB) (rid : Nat)
    (code : String) (now : Nat) {r : ReservationRow} {u : UserRow}
    {s : ServiceRow} {n : NumberRow}
    (hR : findReservation db rid = some r)
    (hW : r.status = ReservationStatus.WAITING_CODE)
    (hU : findUser db r.user_id = some u)
    (hS : findService db r.service_id = some s)
    (hN : findNumber db r.number_id = some n)
    (hB : u.balance < price_of n s)
    (hOnly : ∀ r2 ∈ db.reservations, r2.status = ReservationStatus.WAITING_CODE →
      r2.number_id = n.id → r2.id = rid) :
    (complete_reservation_atomic db rid code now).db.numbers = db.numbers ∧
    (∀ times : List Nat,
      findNumber (times.foldl (fun d t => (check_expired_reservations_pass d t).1)
        (complete_reservation_atomic db rid code now).db) n.id = some n) := by
  have hnid : n.id = r.number_id := (find?_key_some hN).2
  have hchar := complete_insufficient_char hR hW hU hS hN hB code now
  rw [hchar]
  refine ⟨rfl, ?_⟩
  have hkey : ∀ (times : List Nat) (d : DB),
      findNumber d n.id = some n →
      (∀ r2 ∈ d.reservations, r2.status = ReservationStatus.WAITING_CODE →
        r2.number_id ≠ n.id) →
      findNumber (times.foldl (fun d t => (check_expired_reservations_pass d t).1) d) n.id
        = some n := by
    intro times
    induction times with
    | nil => intro d hd _; exact hd
    | cons t ts ih =>
      intro d hd hrefs
      obtain ⟨hd', hrefs'⟩ := sweep_keeps_unreferenced_number t hd hrefs
      exact ih _ hd' hrefs'
  intro times
  apply hkey
  · show db.numbers.find? _ = some n
    rw [hnid]
    exact hN
  · intro r2 hr2 hst
    simp only [updateReservationById] at hr2
    obtain ⟨x, hx, hfx⟩ := List.mem_map.mp hr2
    by_cases hxid : x.id = rid
    · rw [if_pos hxid] at hfx
      rw [← hfx] at hst
      exact ReservationStatus.noConfusion hst
    · rw [if_neg hxid] at hfx
      rw [← hfx]
      intro hnidq
      exact hxid (hOnly x hx (hfx ▸ hst) hnidq)

theorem c10_insufficient_leaves_number_reserved_witness :
    (complete_reservation_atomic exDBBroke 1 ("4821") 100).db.numbers = exDBBroke.numbers ∧
    (∀ times : List Nat,
      findNumber (times.foldl (fun d t => (check_expired_reservations_pass d t).1)
        (complete_reservation_atomic exDBBroke 1 ("4821") 100).db) exNumber.id = some exNumber) :=
  c10_insufficient_leaves_number_reserved exDBBroke 1 ("4821") 100
    (r := exReservation) (u := exUserBroke) (s := exService) (n := exNumber)
    (by decide) (by decide) (by decide) (by decide) (by decide) (by decide) (by decide)

theorem effects_of_noop {db : DB} {rid : Nat} {code : String} {now : Nat}
    (h : complete_reservation_atomic db rid code now = ⟨db, false, []⟩) :
    (complete_reservation_atomic db rid code now).db.next_reservation_id =
      db.next_reservation_id ∧
    (∀ row ∈ (complete_reservation_atomic db rid code now).db.reservations,
      ∃ x ∈ db.reservations, x.id = row.id ∧
        (row.status = ReservationStatus.WAITING_CODE →
         x.status = ReservationStatus.WAITING_CODE)) ∧
    purchaseCount (complete_reservation_atomic db rid code now).db =
      purchaseCount db +
        (if (complete_reservation_atomic db rid code now).ok then 1 else 0) ∧
    ((complete_reservation_atomic db rid code now).ok = true →
      (∃ x ∈ db.reservations, x.id = rid ∧
        x.status = ReservationStatus.WAITING_CODE) ∧
      (∀ row ∈ (complete_reservation_atomic db rid code now).db.reservations,
        row.id = rid → row.status = ReservationStatus.COMPLETED)) := by
  rw [h]
  refine ⟨rfl, fun row hrow => ⟨row, hrow, rfl, fun hs => hs⟩, by simp, ?_⟩
  intro hok
  exact absurd hok (by simp)

/-- The facts about one `Complete` call needed for the ledger accounting:
the counter is unchanged, WAITING_CODE rows all come from WAITING_CODE rows
with the same id, the PURCHASE count grows by one exactly on success, and a
success both observed a WAITING_CODE row of that id and leaves every row of
that id COMPLETED. -/
theorem complete_effects (db : DB) (rid : Nat) (code : String) (now : Nat) :
    (complete_reservation_atomic db rid code now).db.next_reservation_id =
      db.next_reservation_id ∧
    (∀ row ∈ (complete_reservation_atomic db rid code now).db.reservations,
      ∃ x ∈ db.reservations, x.id = row.id ∧
        (row.status = ReservationStatus.WAITING_CODE →
         x.status = ReservationStatus.WAITING_CODE)) ∧
    purchaseCount (complete_reservation_atomic db rid code now).db =
      purchaseCount db +
        (if (complete_reservation_atomic db rid code now).ok then 1 else 0) ∧
    ((complete_reservation_atomic db rid code now).ok = true →
      (∃ x ∈ db.reservations, x.id = rid ∧
        x.status = ReservationStatus.WAITING_CODE) ∧
      (∀ row ∈ (complete_reservation_atomic db rid code now).db.reservations,
        row.id = rid → row.status = ReservationStatus.COMPLETED)) := by
  rcases hR : findReservation db rid with _ | r
  · exact effects_of_noop (by simp [complete_reservation_atomic, hR])
  · by_cases hW : r.status = ReservationStatus.WAITING_CODE
    · rcases hU : findUser db r.user_id with _ | u
      · exact effects_of_noop (by simp [complete_reservation_atomic, hR, hW, hU])
      · rcases hS : findService db r.service_id with _ | s
        · exact effects_of_noop (by simp [complete_reservation_atomic, hR, hW, hU, hS])
        · rcases hN : findNumber db r.number_id with _ | n
          · exact effects_of_noop (by simp [complete_reservation_atomic, hR, hW, hU, hS, hN])
          · by_cases hB : u.balance < price_of n s
            · rw [complete_insufficient_char hR hW hU hS hN hB code now]
              refine ⟨rfl, ?_, by simp [purchaseCount, updateReservationById], ?_⟩
              · intro row hrow
                simp only [updateReservationById] at hrow
                obtain ⟨x, hx, hfx⟩ := List.mem_map.mp hrow
                by_cases hxid : x.id = rid
                · rw [if_pos hxid] at hfx
                  refine ⟨x, hx, ?_, ?_⟩
                  · rw [← hfx]; rfl
                  · intro hs
                    rw [← hfx] at hs
                    exact absurd hs (by simp)
                · rw [if_neg hxid] at hfx
                  exact ⟨x, hx, by rw [← hfx], fun hs => by rw [← hfx] at hs; exact hs⟩
              · intro hok
                exact absurd hok (by simp)
            · obtain ⟨hok, _hu, hres, _hnum, htx, _⟩ :=
                complete_success_parts hR hW hU hS hN hB code now
              refine ⟨?_, ?_, ?_, ?_⟩
              · exact ((complete_success_parts hR hW hU hS hN hB code now).2.2.2.2.2.2.2.2.2)
              · intro row hrow
                rw [hres] at hrow
                obtain ⟨x, hx, hfx⟩ := List.mem_map.mp hrow
                by_cases hxid : x.id = rid
                · rw [if_pos hxid] at hfx
                  refine ⟨x, hx, ?_, ?_⟩
                  · rw [← hfx]
                  · intro hs
                    rw [← hfx] at hs
                    exact absurd hs (by simp)
                · rw [if_neg hxid] at hfx
                  exact ⟨x, hx, by rw [← hfx], fun hs => by rw [← hfx] at hs; exact hs⟩
              · rw [hok]
                simp only [purchaseCount, htx, List.filter_append, List.length_append]
                simp
              · intro _
                obtain ⟨hmem, hid⟩ := find?_key_some hR
                refine ⟨⟨r, hmem, hid, hW⟩, ?_⟩
                intro row hrow hrid
                rw [hres] at hrow
                obtain ⟨x, hx, hfx⟩ := List.mem_map.mp hrow
                by_cases hxid : x.id = rid
                · rw [if_pos hxid] at hfx
                  rw [← hfx]
                · rw [if_neg hxid] at hfx
                  rw [← hfx] at hrid
                  exact absurd hrid hxid
    · exact effects_of_noop (by simp [complete_reservation_atomic, hR, hW])

theorem purchaseCount_congr {d1 d2 : DB} (h : d1.transactions = d2.transactions) :
    purchaseCount d1 = purchaseCount d2 := by
  simp [purchaseCount, h]

theorem opSkeleton_id (db : DB) : OpSkeleton db db :=
  ⟨Nat.le_refl _, fun row hrow => Or.inl ⟨row, hrow, rfl, fun hs => hs⟩⟩

theorem reserve_skeleton (db : DB) (uid sid : Nat) (cc : String) (now : Nat) :
    OpSkeleton db (reserve_number db uid sid cc now).1 ∧
    (reserve_number db uid sid cc now).1.transactions = db.transactions := by
  rcases hF : db.numbers.find? (fun n =>
      decide (n.service_id = sid) && decide (n.country_code = cc) &&
      decide (n.status = NumberStatus.AVAILABLE)) with _ | n0
  · rw [show (reserve_number db uid sid cc now).1 = db by simp [reserve_number, hF]]
    exact ⟨opSkeleton_id db, rfl⟩
  · have hshape : (reserve_number db uid sid cc now).1.reservations =
        db.reservations ++
          [{ id := db.next_reservation_id, user_id := uid, service_id := sid,
             number_id := n0.id, status := ReservationStatus.WAITING_CODE,
             created_at := some now, completed_at := none,
             expired_at := some (now + RESERVATION_TIMEOUT_MIN * 60),
             code_value := none }] ∧
      (reserve_number db uid sid cc now).1.next_reservation_id =
        db.next_reservation_id + 1 ∧
      (reserve_number db uid sid cc now).1.transactions = db.transactions := by
      simp [reserve_number, hF, updateNumberById]
    obtain ⟨hres, hnext, htx⟩ := hshape
    refine ⟨⟨by rw [hnext]; exact Nat.le_succ _, ?_⟩, htx⟩
    intro row hrow
    rw [hres] at hrow
    rcases List.mem_append.mp hrow with hmem | hmem
    · exact Or.inl ⟨row, hmem, rfl, fun hs => hs⟩
    · right
      have heq : row = _ := List.mem_singleton.mp hmem
      rw [heq, hnext]
      exact ⟨Nat.le_refl _, Nat.lt_succ_self _⟩

theorem sweep_skeleton (db : DB) (now : Nat) :
    OpSkeleton db (check_expired_reservations_pass db now).1 ∧
    (check_expired_reservations_pass db now).1.transactions = db.transactions := by
  rw [sweep_pass_fst]
  refine ⟨⟨Nat.le_refl _, ?_⟩, rfl⟩
  intro row hrow
  obtain ⟨x, hx, hfx⟩ := List.mem_map.mp hrow
  left
  by_cases hc : x.id ∈ (db.reservations.filter (sweepCond now)).map (fun r => r.id)
  · rw [if_pos hc] at hfx
    refine ⟨x, hx, by rw [← hfx]; rfl, ?_⟩
    intro hs
    rw [← hfx] at hs
    exact absurd hs (by simp)
  · rw [if_neg hc] at hfx
    exact ⟨x, hx, by rw [← hfx], fun hs => by rw [← hfx] at hs; exact hs⟩

theorem change_number_skeleton (db : DB) (rid now : Nat) :
    OpSkeleton db (change_number db rid now) ∧
    (change_number db rid now).transactions = db.transactions := by
  rcases hR : findReservation db rid with _ | r
  · rw [show change_number db rid now = db by simp [change_number, hR]]
    exact ⟨opSkeleton_id db, rfl⟩
  · by_cases hW : r.status = ReservationStatus.WAITING_CODE
    · rcases hC : findNumber db r.number_id with _ | cur
      · rw [show change_number db rid now = db by simp [change_number, hR, hW, hC]]
        exact ⟨opSkeleton_id db, rfl⟩
      · rcases hF2 : (updateNumberById db cur.id clearNumber).numbers.find? (fun n =>
            decide (n.service_id = r.service_id) &&
            decide (n.country_code = cur.country_code) &&
            decide (n.status = NumberStatus.AVAILABLE) &&
            decide (n.id ≠ cur.id)) with _ | newN
        · have hstep : change_number db rid now =
              updateNumberById (updateNumberById db cur.id clearNumber) cur.id
                (reserveNumberFor r.user_id now r.expired_at) := by
            unfold change_number
            rw [hR]
            dsimp only
            rw [if_neg (fun h => h hW), hC]
            dsimp only
            rw [hF2]
          refine ⟨⟨by rw [hstep]; exact Nat.le_refl _, ?_⟩, by rw [hstep]; rfl⟩
          intro row hrow
          rw [hstep] at hrow
          exact Or.inl ⟨row, hrow, rfl, fun hs => hs⟩
        · have hstep : change_number db rid now =
              updateNumberById (updateReservationById
                  (updateNumberById db cur.id clearNumber) rid
                  (fun x => { x with number_id := newN.id })) newN.id
                (reserveNumberFor r.user_id now r.expired_at) := by
            unfold change_number
            rw [hR]
            dsimp only
            rw [if_neg (fun h => h hW), hC]
            dsimp only
            rw [hF2]
          have hres : (change_number db rid now).reservations =
              db.reservations.map (fun x =>
                if x.id = rid then { x with number_id := newN.id } else x) := by
            rw [hstep]
            rfl
          refine ⟨⟨by rw [hstep]; exact Nat.le_refl _, ?_⟩, by rw [hstep]; rfl⟩
          intro row hrow
          rw [hres] at hrow
          obtain ⟨x, hx, hfx⟩ := List.mem_map.mp hrow
          left
          by_cases hxid : x.id = rid
          · rw [if_pos hxid] at hfx
            refine ⟨x, hx, by rw [← hfx], ?_⟩
            intro hs
            rw [← hfx] at hs
            exact hs
          · rw [if_neg hxid] at hfx
            exact ⟨x, hx, by rw [← hfx], fun hs => by rw [← hfx] at hs; exact hs⟩
    · rw [show change_number db rid now = db by simp [change_number, hR, hW]]
      exact ⟨opSkeleton_id db, rfl⟩

theorem change_country_skeleton (db : DB) (rid : Nat) :
    OpSkeleton db (change_country db rid) ∧
    (change_country db rid).transactions = db.transactions := by
  rcases hR : findReservation db rid with _ | r
  · rw [show change_country db rid = db by simp [change_country, hR]]
    exact ⟨opSkeleton_id db, rfl⟩
  · have hshape : (change_country db rid).reservations =
        db.reservations.filter (fun x => decide (x.id ≠ rid)) ∧
        (change_country db rid).next_reservation_id = db.next_reservation_id ∧
        (change_country db rid).transactions = db.transactions := by
      rcases hC : findNumber db r.number_id with _ | cur <;>
        simp [change_country, hR, hC, updateNumberById]
    obtain ⟨hres, hnext, htx⟩ := hshape
    refine ⟨⟨by rw [hnext], ?_⟩, htx⟩
    intro row hrow
    rw [hres] at hrow
    exact Or.inl ⟨row, (List.mem_filter.mp hrow).1, rfl, fun hs => hs⟩

/-- Skeleton and ledger effect of an arbitrary operation: the counter is
monotone and rows originate as in `OpSkeleton`, and the PURCHASE count grows
by one exactly when the operation is a successful `Complete`. -/
theorem applyOp_skeleton (db : DB) (op : EngineOp) :
    OpSkeleton db (applyOp db op) ∧
    purchaseCount (applyOp db op) =
      purchaseCount db + (if successAt db op then 1 else 0) := by
  cases op with
  | reserveOp u s cc now =>
    obtain ⟨hsk, htx⟩ := reserve_skeleton db u s cc now
    exact ⟨hsk, by simp only [applyOp]; rw [purchaseCount_congr htx]; simp [successAt]⟩
  | completeOp rid code now =>
    obtain ⟨hnext, horigin, hpc, _⟩ := complete_effects db rid code now
    exact ⟨⟨by rw [show (applyOp db (.completeOp rid code now)).next_reservation_id =
        db.next_reservation_id from hnext],
      fun row hrow => Or.inl (horigin row hrow)⟩, hpc⟩
  | sweepOp now =>
    obtain ⟨hsk, htx⟩ := sweep_skeleton db now
    exact ⟨hsk, by simp only [applyOp]; rw [purchaseCount_congr htx]; simp [successAt]⟩
  | changeNumberOp rid now =>
    obtain ⟨hsk, htx⟩ := change_number_skeleton db rid now
    exact ⟨hsk, by simp only [applyOp]; rw [purchaseCount_congr htx]; simp [successAt]⟩
  | changeCountryOp rid =>
    obtain ⟨hsk, htx⟩ := change_country_skeleton db rid
    exact ⟨hsk, by simp only [applyOp]; rw [purchaseCount_congr htx]; simp [successAt]⟩

theorem dead_preserved (db : DB) (op : EngineOp) (rid : Nat) (h : DeadFor db rid) :
    DeadFor (applyOp db op) rid := by
  obtain ⟨hle, horigin⟩ := (applyOp_skeleton db op).1
  refine ⟨?_, Nat.lt_of_lt_of_le h.2 hle⟩
  intro row hrow hid hs
  rcases horigin row hrow with ⟨x, hx, hxid, himp⟩ | ⟨hge, _⟩
  · exact h.1 x hx (hxid.trans hid) (himp hs)
  · rw [hid] at hge
    exact absurd h.2 (Nat.not_lt.mpr hge)

theorem dead_no_success (db : DB) (rid : Nat) (code : String) (now : Nat)
    (h : DeadFor db rid) :
    (complete_reservation_atomic db rid code now).ok = false := by
  rw [complete_noop_of_not_waiting h.1 code now]

theorem bounded_preserved (db : DB) (op : EngineOp) (h : ResIdsBounded db) :
    ResIdsBounded (applyOp db op) := by
  obtain ⟨hle, horigin⟩ := (applyOp_skeleton db op).1
  intro row hrow
  rcases horigin row hrow with ⟨x, hx, hxid, -⟩ | ⟨-, hlt⟩
  · exact Nat.lt_of_lt_of_le (hxid ▸ h x hx) hle
  · exact hlt

theorem success_dead (db : DB) (rid : Nat) (code : String) (now : Nat)
    (hb : ResIdsBounded db)
    (hok : (complete_reservation_atomic db rid code now).ok = true) :
    DeadFor (complete_reservation_atomic db rid code now).db rid := by
  obtain ⟨hnext, -, -, hsucc⟩ := complete_effects db rid code now
  obtain ⟨⟨x, hx, hxid, -⟩, hall⟩ := hsucc hok
  refine ⟨?_, ?_⟩
  · intro row hrow hid hs
    rw [hall row hrow hid] at hs
    exact ReservationStatus.noConfusion hs
  · rw [hnext]
    exact hxid ▸ hb x hx

theorem successesFor_zero_of_dead (rid : Nat) :
    ∀ (ops : List EngineOp) (db : DB), DeadFor db rid →
      successesFor rid db ops = 0 := by
  intro ops
  induction ops with
  | nil => intro db _; rfl
  | cons op ops ih =>
    intro db h
    have hrest := ih (applyOp db op) (dead_preserved db op rid h)
    have hzero : (if isCompleteOf rid op && successAt db op then 1 else 0) = 0 := by
      cases op with
      | completeOp r c t =>
        by_cases hr : r = rid
        · subst hr
          simp [successAt, dead_no_success db r c t h]
        · simp [isCompleteOf, hr]
      | reserveOp u s cc now => simp [isCompleteOf]
      | sweepOp now => simp [isCompleteOf]
      | changeNumberOp a b => simp [isCompleteOf]
      | changeCountryOp a => simp [isCompleteOf]
    show (if isCompleteOf rid op && successAt db op then 1 else 0) +
      successesFor rid (applyOp db op) ops = 0
    rw [hzero, hrest]

theorem purchase_ledger (ops : List EngineOp) :
    ∀ db : DB, purchaseCount (run db ops) = purchaseCount db + totalSuccesses db ops := by
  induction ops with
  | nil => intro db; simp [run, totalSuccesses]
  | cons op ops ih =>
    intro db
    show purchaseCount (run (applyOp db op) ops) = _
    rw [ih (applyOp db op), (applyOp_skeleton db op).2]
    show _ = purchaseCount db +
      ((if successAt db op then 1 else 0) + totalSuccesses (applyOp db op) ops)
    omega

theorem successesFor_le_one (rid : Nat) (ops : List EngineOp) :
    ∀ db : DB, ResIdsBounded db → successesFor rid db ops ≤ 1 := by
  induction ops with
  | nil => intro db _; exact Nat.zero_le 1
  | cons op ops ih =>
    intro db hb
    show (if isCompleteOf rid op && successAt db op then 1 else 0) +
      successesFor rid (applyOp db op) ops ≤ 1
    by_cases hs : (isCompleteOf rid op && successAt db op) = true
    · have hco : isCompleteOf rid op = true := by
        have h2 := hs
        rw [Bool.and_eq_true] at h2
        exact h2.1
      have hsa : successAt db op = true := by
        have h2 := hs
        rw [Bool.and_eq_true] at h2
        exact h2.2
      have hz : successesFor rid (applyOp db op) ops = 0 := by
        cases op with
        | completeOp r c t =>
          have hr : r = rid := by simpa [isCompleteOf] using hco
          subst hr
          have hok : (complete_reservation_atomic db r c t).ok = true := hsa
          exact successesFor_zero_of_dead r ops _ (success_dead db r c t hb hok)
        | reserveOp u s cc now => exact absurd hco (by simp [isCompleteOf])
        | sweepOp now => exact absurd hco (by simp [isCompleteOf])
        | changeNumberOp a b => exact absurd hco (by simp [isCompleteOf])
        | changeCountryOp a => exact absurd hco (by simp [isCompleteOf])
      rw [if_pos hs, hz]
    · rw [if_neg hs]
      have := ih (applyOp db op) (bounded_preserved db op hb)
      omega

/-- Claim C1: over any trace of engine operations from a store whose
reservation ids are below the autoincrement counter, at most one successful
`Complete` — hence at most one PURCHASE transaction — ever happens for a
given reservation id, no matter how many times or from which producer
`Complete` is invoked; the PURCHASE count of the ledger grows by exactly the
number of successful `Complete` calls, so `complete_reservation_atomic` is
the only creator of PURCHASE transactions among the engine's operations; and
a successful `Complete` is exactly one that observed the reservation in
WAITING_CODE and performed the WAITING_CODE → COMPLETED transition. -/
theorem c1_at_most_one_purchase_per_reservation (db : DB) (ops : List EngineOp)
    (rid : Nat) (hb : ResIdsBounded db) :
    successesFor rid db ops ≤ 1 ∧
    purchaseCount (run db ops) = purchaseCount db + totalSuccesses db ops ∧
    (∀ (code : String) (now : Nat),
      (complete_reservation_atomic db rid code now).ok = true →
      (∃ x ∈ db.reservations, x.id = rid ∧
        x.status = ReservationStatus.WAITING_CODE) ∧
      (∀ row ∈ (complete_reservation_atomic db rid code now).db.reservations,
        row.id = rid → row.status = ReservationStatus.COMPLETED)) :=
  ⟨successesFor_le_one rid ops db hb, purchase_ledger ops db,
   fun code now hok => (complete_effects db rid code now).2.2.2 hok⟩

theorem c1_at_most_one_purchase_per_reservation_witness :
    successesFor 1 exDB
        [EngineOp.completeOp 1 ("4821") 100, EngineOp.completeOp 1 ("9999") 200] ≤ 1 ∧
    purchaseCount (run exDB
        [EngineOp.completeOp 1 ("4821") 100, EngineOp.completeOp 1 ("9999") 200]) =
      purchaseCount exDB + totalSuccesses exDB
        [EngineOp.completeOp 1 ("4821") 100, EngineOp.completeOp 1 ("9999") 200] ∧
    (∀ (code : String) (now : Nat),
      (complete_reservation_atomic exDB 1 code now).ok = true →
      (∃ x ∈ exDB.reservations, x.id = 1 ∧
        x.status = ReservationStatus.WAITING_CODE) ∧
      (∀ row ∈ (complete_reservation_atomic exDB 1 code now).db.reservations,
        row.id = 1 → row.status = ReservationStatus.COMPLETED)) :=
  c1_at_most_one_purchase_per_reservation exDB
    [EngineOp.completeOp 1 ("4821") 100, EngineOp.completeOp 1 ("9999") 200] 1
    (by decide)

/-- Claim C3, counterexamples: the claimed consistency fails on exactly two
paths.  First, from a consistent store (balance 3, price 10, one RESERVED
number owned by one WAITING_CODE reservation), the insufficient-balance
branch of `Complete` flips the reservation to EXPIRED while its Number stays
RESERVED, so the Number is RESERVED although no WAITING_CODE reservation
references it.  Second, from a consistent store holding a stale EXPIRED
reservation whose number has since been re-reserved by a newer WAITING_CODE
reservation, `change_country` on the stale reservation (the handler never
checks its status) releases that number to AVAILABLE although its new owner
still waits on it. -/
theorem c3_counterexample_consistency_broken :
    (Consistent exDBBroke ∧
     ¬ StatusConsistent (applyOp exDBBroke (EngineOp.completeOp 1 ("4821") 100))) ∧
    (Consistent exDBStale ∧
     ¬ StatusConsistent (applyOp exDBStale (EngineOp.changeCountryOp 1))) := by
  decide


theorem sweep_pass_fst2 (db : DB) (now : Nat) :
    (check_expired_reservations_pass db now).1 =
      { db with
        reservations := db.reservations.map (sweepMarkF db now),
        numbers := db.numbers.map (sweepClearG db now) } := by
  rw [sweep_pass_fst]
  rfl

@[simp] theorem sweepMarkF_id (db : DB) (now : Nat) (x : ReservationRow) :
    (sweepMarkF db now x).id = x.id := by
  unfold sweepMarkF
  by_cases h : x.id ∈ (db.reservations.filter (sweepCond now)).map (fun r => r.id) <;>
    simp [h]

@[simp] theorem sweepClearG_id (db : DB) (now : Nat) (n : NumberRow) :
    (sweepClearG db now n).id = n.id := by
  unfold sweepClearG
  by_cases h : n.id ∈ (db.reservations.filter (sweepCond now)).map (fun r => r.number_id) <;>
    simp [h]

theorem sweepMarkF_of_not_cond {db : DB} {now : Nat} {x : ReservationRow}
    (hU : UniqueIds (fun r => r.id) db.reservations) (hx : x ∈ db.reservations)
    (h : sweepCond now x = false) : sweepMarkF db now x = x := by
  unfold sweepMarkF
  refine if_neg (fun hmem => ?_)
  have h1 := (id_mem_sweep_snapshot_iff hU hx).mp hmem
  rw [h1] at h
  exact Bool.noConfusion h

/-- A row that is still an owner after the pass was outside the snapshot and
is unchanged. -/
theorem sweepMarkF_owner {db : DB} {now : Nat} {x : ReservationRow}
    (hU : UniqueIds (fun r => r.id) db.reservations) (hx : x ∈ db.reservations)
    (hst : (sweepMarkF db now x).status = ReservationStatus.WAITING_CODE ∨
           (sweepMarkF db now x).status = ReservationStatus.COMPLETED) :
    sweepMarkF db now x = x ∧ sweepCond now x = false := by
  by_cases h : sweepCond now x = true
  · have : sweepMarkF db now x = expireMark x := by
      unfold sweepMarkF
      exact if_pos ((id_mem_sweep_snapshot_iff hU hx).mpr h)
    rw [this] at hst
    rcases hst with hst | hst <;> exact absurd hst (by simp)
  · have h0 : sweepCond now x = false := by
      rcases hc : sweepCond now x with _ | _
      · rfl
      · exact absurd hc h
    exact ⟨sweepMarkF_of_not_cond hU hx h0, h0⟩

theorem consistent_sweep (db : DB) (now : Nat) (hC : Consistent db) :
    Consistent (check_expired_reservations_pass db now).1 := by
  obtain ⟨Ur, Un, bound, ownU, noDel, SC⟩ := hC
  rw [sweep_pass_fst2]
  refine ⟨?_, ?_, ?_, ?_, ?_, ?_⟩
  · refine (List.pairwise_map).mpr (Ur.imp (fun {a b} h => ?_))
    intro hc
    simp only [sweepMarkF_id] at hc
    exact h hc
  · refine (List.pairwise_map).mpr (Un.imp (fun {a b} h => ?_))
    intro hc
    simp only [sweepClearG_id] at hc
    exact h hc
  · intro row hrow
    obtain ⟨x, hx, hfx⟩ := List.mem_map.mp hrow
    have hid : row.id = x.id := by rw [← hfx]; exact sweepMarkF_id db now x
    rw [hid]
    exact bound x hx
  · intro r1 hr1 r2 hr2 hnid h1 h2
    obtain ⟨x1, hx1, hfx1⟩ := List.mem_map.mp hr1
    obtain ⟨x2, hx2, hfx2⟩ := List.mem_map.mp hr2
    obtain ⟨he1, -⟩ := sweepMarkF_owner Ur hx1 (by rw [hfx1]; exact h1)
    obtain ⟨he2, -⟩ := sweepMarkF_owner Ur hx2 (by rw [hfx2]; exact h2)
    rw [← hfx1, he1] at hnid h1 ⊢
    rw [← hfx2, he2] at hnid h2 ⊢
    exact ownU x1 hx1 x2 hx2 hnid h1 h2
  · intro n' hn'
    obtain ⟨n, hn, hgn⟩ := List.mem_map.mp hn'
    rw [← hgn]
    unfold sweepClearG
    by_cases h : n.id ∈ (db.reservations.filter (sweepCond now)).map (fun r => r.number_id) <;>
      simp [h]
    exact noDel n hn
  · intro n' hn'
    obtain ⟨n, hn, hgn⟩ := List.mem_map.mp hn'
    obtain ⟨hc1, hc2, hc3⟩ := SC n hn
    by_cases hcase : n.id ∈ (db.reservations.filter (sweepCond now)).map (fun r => r.number_id)
    · -- the number was referenced from the snapshot: it is cleared
      obtain ⟨u, hu, hunid⟩ := List.mem_map.mp hcase
      obtain ⟨humem, hucond⟩ := List.mem_filter.mp hu
      have huW := (sweepCond_spec hucond).1
      have hGn : sweepClearG db now n = clearNumber n := by
        unfold sweepClearG
        exact if_pos hcase
      rw [← hgn, hGn]
      have hnoowner : ¬ ∃ x ∈ db.reservations.map (sweepMarkF db now),
          x.number_id = (clearNumber n).id ∧
          (x.status = ReservationStatus.WAITING_CODE ∨
           x.status = ReservationStatus.COMPLETED) := by
        rintro ⟨x', hx', hxnum, hxst⟩
        obtain ⟨x, hx, hfx⟩ := List.mem_map.mp hx'
        obtain ⟨he, hcond⟩ := sweepMarkF_owner Ur hx (by rw [hfx]; exact hxst)
        have hxu : x = u := by
          refine ownU x hx u humem ?_ ?_ (Or.inl huW)
          · rw [show u.number_id = n.id from hunid]
            rw [← he, hfx]
            exact hxnum
          · rw [← he, hfx]
            exact hxst
        rw [hxu, hucond] at hcond
        exact Bool.noConfusion hcond
      refine ⟨?_, ?_, ?_⟩
      · constructor
        · intro h
          exact absurd h (by simp [clearNumber])
        · rintro ⟨x', hx', hxn, hxw⟩
          exact absurd ⟨x', hx', hxn, Or.inl hxw⟩ hnoowner
      · constructor
        · intro h
          exact absurd h (by simp [clearNumber])
        · rintro ⟨x', hx', hxn, hxc⟩
          exact absurd ⟨x', hx', hxn, Or.inr hxc⟩ hnoowner
      · constructor
        · intro _ h
          exact hnoowner h
        · intro _
          rfl
    · -- the number was not referenced from the snapshot: it is unchanged
      have hGn : sweepClearG db now n = n := by
        unfold sweepClearG
        exact if_neg hcase
      rw [← hgn, hGn]
      have hnotouch : ∀ x ∈ db.reservations, x.number_id = n.id →
          sweepCond now x = false := by
        intro x hx hxnum
        rcases hcx : sweepCond now x with _ | _
        · rfl
        · exact absurd (List.mem_map.mpr ⟨x, List.mem_filter.mpr ⟨hx, hcx⟩, hxnum⟩) hcase
      refine ⟨?_, ?_, ?_⟩
      · rw [hc1]
        constructor
        · rintro ⟨x, hx, hxnum, hxst⟩
          have he := sweepMarkF_of_not_cond Ur hx (hnotouch x hx hxnum)
          exact ⟨sweepMarkF db now x, List.mem_map.mpr ⟨x, hx, rfl⟩,
            by rw [he]; exact hxnum, by rw [he]; exact hxst⟩
        · rintro ⟨x', hx', hxnum, hxst⟩
          obtain ⟨x, hx, hfx⟩ := List.mem_map.mp hx'
          obtain ⟨he, -⟩ := sweepMarkF_owner Ur hx (by rw [hfx]; left; exact hxst)
          exact ⟨x, hx, by rw [← he, hfx]; exact hxnum, by rw [← he, hfx]; exact hxst⟩
      · rw [hc2]
        constructor
        · rintro ⟨x, hx, hxnum, hxst⟩
          have he := sweepMarkF_of_not_cond Ur hx (hnotouch x hx hxnum)
          exact ⟨sweepMarkF db now x, List.mem_map.mpr ⟨x, hx, rfl⟩,
            by rw [he]; exact hxnum, by rw [he]; exact hxst⟩
        · rintro ⟨x', hx', hxnum, hxst⟩
          obtain ⟨x, hx, hfx⟩ := List.mem_map.mp hx'
          obtain ⟨he, -⟩ := sweepMarkF_owner Ur hx (by rw [hfx]; right; exact hxst)
          exact ⟨x, hx, by rw [← he, hfx]; exact hxnum, by rw [← he, hfx]; exact hxst⟩
      · rw [hc3]
        constructor
        · rintro hno ⟨x', hx', hxnum, hxst⟩
          obtain ⟨x, hx, hfx⟩ := List.mem_map.mp hx'
          obtain ⟨he, -⟩ := sweepMarkF_owner Ur hx (by rw [hfx]; exact hxst)
          exact hno ⟨x, hx, by rw [← he, hfx]; exact hxnum, by rw [← he, hfx]; exact hxst⟩
        · rintro hno ⟨x, hx, hxnum, hxst⟩
          have he := sweepMarkF_of_not_cond Ur hx (hnotouch x hx hxnum)
          exact hno ⟨sweepMarkF db now x, List.mem_map.mpr ⟨x, hx, rfl⟩,
            by rw [he]; exact hxnum, by rw [he]; exact hxst⟩

theorem consistent_complete (db : DB) (rid : Nat) (code : String) (now : Nat)
    (hC : Consistent db) (hIns : hitsInsufficient db rid = false) :
    Consistent (complete_reservation_atomic db rid code now).db := by
  obtain ⟨Ur, Un, bound, ownU, noDel, SC⟩ := hC
  rcases hR : findReservation db rid with _ | r
  · rw [show (complete_reservation_atomic db rid code now).db = db from by
      simp [complete_reservation_atomic, hR]]
    exact ⟨Ur, Un, bound, ownU, noDel, SC⟩
  · by_cases hW : r.status = ReservationStatus.WAITING_CODE
    · rcases hU : findUser db r.user_id with _ | u
      · rw [show (complete_reservation_atomic db rid code now).db = db from by
          simp [complete_reservation_atomic, hR, hW, hU]]
        exact ⟨Ur, Un, bound, ownU, noDel, SC⟩
      · rcases hS : findService db r.service_id with _ | s
        · rw [show (complete_reservation_atomic db rid code now).db = db from by
            simp [complete_reservation_atomic, hR, hW, hU, hS]]
          exact ⟨Ur, Un, bound, ownU, noDel, SC⟩
        · rcases hN : findNumber db r.number_id with _ | n
          · rw [show (complete_reservation_atomic db rid code now).db = db from by
              simp [complete_reservation_atomic, hR, hW, hU, hS, hN]]
            exact ⟨Ur, Un, bound, ownU, noDel, SC⟩
          · by_cases hB : u.balance < price_of n s
            · exfalso
              simp [hitsInsufficient, hR, hU, hS, hN, hW, hB] at hIns
            · obtain ⟨-, -, hres, hnum, -, -, -, -, -, hnext⟩ :=
                complete_success_parts hR hW hU hS hN hB code now
              obtain ⟨hmem_r, hid_r⟩ := find?_key_some hR
              obtain ⟨hmem_n, hid_n⟩ := find?_key_some hN
              have hres_n : n.status = NumberStatus.RESERVED :=
                (SC n hmem_n).1.mpr ⟨r, hmem_r, hid_n.symm, hW⟩
              -- the row rewrites
              have hxr : ∀ x ∈ db.reservations, x.id = rid → x = r := by
                intro x hx hxid
                exact uniqueIds_eq_of_key_eq Ur hx hmem_r (hxid.trans hid_r.symm)
              have hmn : ∀ m ∈ db.numbers, m.id = n.id → m = n := by
                intro m hm hmid
                exact uniqueIds_eq_of_key_eq Un hm hmem_n hmid
              have hFid : ∀ x : ReservationRow,
                  ((if x.id = rid then
                    { x with status := ReservationStatus.COMPLETED,
                             code_value := some code,
                             completed_at := some now } else x) : ReservationRow).id = x.id := by
                intro x
                by_cases h : x.id = rid <;> simp [h]
              have hFnum : ∀ x : ReservationRow,
                  ((if x.id = rid then
                    { x with status := ReservationStatus.COMPLETED,
                             code_value := some code,
                             completed_at := some now } else x) : ReservationRow).number_id
                    = x.number_id := by
                intro x
                by_cases h : x.id = rid <;> simp [h]
              have hGid : ∀ m : NumberRow,
                  ((if m.id = n.id then
                    { m with status := NumberStatus.USED,
                             code_received_at := some now } else m) : NumberRow).id = m.id := by
                intro m
                by_cases h : m.id = n.id <;> simp [h]
              -- owner statuses transfer in both directions
              have hFowner : ∀ x ∈ db.reservations,
                  (((if x.id = rid then
                      { x with status := ReservationStatus.COMPLETED,
                               code_value := some code,
                               completed_at := some now } else x) : ReservationRow).status =
                      ReservationStatus.WAITING_CODE ∨
                   ((if x.id = rid then
                      { x with status := ReservationStatus.COMPLETED,
                               code_value := some code,
                               completed_at := some now } else x) : ReservationRow).status =
                      ReservationStatus.COMPLETED) ↔
                  (x.status = ReservationStatus.WAITING_CODE ∨
                   x.status = ReservationStatus.COMPLETED) := by
                intro x hx
                by_cases h : x.id = rid
                · have hxr2 := hxr x hx h
                  subst hxr2
                  simp [h, hW]
                · simp [h]
              refine ⟨?_, ?_, ?_, ?_, ?_, ?_⟩
              · rw [hres]
                refine (List.pairwise_map).mpr (Ur.imp (fun {a b} h => ?_))
                intro hc
                simp only [hFid] at hc
                exact h hc
              · rw [hnum]
                refine (List.pairwise_map).mpr (Un.imp (fun {a b} h => ?_))
                intro hc
                simp only [hGid] at hc
                exact h hc
              · rw [hres, hnext]
                intro row hrow
                obtain ⟨x, hx, hfx⟩ := List.mem_map.mp hrow
                have : row.id = x.id := by rw [← hfx]; exact hFid x
                rw [this]
                exact bound x hx
              · rw [hres]
                intro r1 hr1 r2 hr2 hnid h1 h2
                obtain ⟨x1, hx1, hfx1⟩ := List.mem_map.mp hr1
                obtain ⟨x2, hx2, hfx2⟩ := List.mem_map.mp hr2
                have hnid' : x1.number_id = x2.number_id := by
                  rw [← hFnum x1, ← hFnum x2, hfx1, hfx2]
                  exact hnid
                have h1' := (hFowner x1 hx1).mp (by rw [hfx1]; exact h1)
                have h2' := (hFowner x2 hx2).mp (by rw [hfx2]; exact h2)
                rw [← hfx1, ← hfx2]
                rw [ownU x1 hx1 x2 hx2 hnid' h1' h2']
              · rw [hnum]
                intro m' hm'
                obtain ⟨m, hm, hgm⟩ := List.mem_map.mp hm'
                rw [← hgm]
                by_cases h : m.id = n.id <;> simp [h]
                exact noDel m hm
              · intro m' hm'
                rw [hnum] at hm'
                obtain ⟨m, hm, hgm⟩ := List.mem_map.mp hm'
                obtain ⟨hc1, hc2, hc3⟩ := SC m hm
                by_cases hcase : m.id = n.id
                · -- the completed number: flipped to USED
                  have hmn2 := hmn m hm hcase
                  subst hmn2
                  have hgm2 : m' = { m with status := NumberStatus.USED, code_received_at := some now } := by
                    rw [← hgm, if_pos hcase]
                  rw [hgm2]
                  have hcompletedref : ∃ x ∈ (complete_reservation_atomic db rid code now).db.reservations,
                      x.number_id = m.id ∧ x.status = ReservationStatus.COMPLETED := by
                    rw [hres]
                    refine ⟨_, List.mem_map.mpr ⟨r, hmem_r, rfl⟩, ?_⟩
                    rw [if_pos hid_r]
                    exact ⟨hid_n ▸ hcase ▸ rfl, rfl⟩
                  have hnowaiting : ¬ ∃ x ∈ (complete_reservation_atomic db rid code now).db.reservations,
                      x.number_id = m.id ∧ x.status = ReservationStatus.WAITING_CODE := by
                    rw [hres]
                    rintro ⟨x', hx', hxnum, hxst⟩
                    obtain ⟨x, hx, hfx⟩ := List.mem_map.mp hx'
                    by_cases hxid : x.id = rid
                    · rw [if_pos hxid] at hfx
                      rw [← hfx] at hxst
                      exact absurd hxst (by simp)
                    · rw [if_neg hxid] at hfx
                      rw [← hfx] at hxnum hxst
                      have hxeq : x = r := ownU x hx r hmem_r
                        (by rw [hxnum, hid_n]) (Or.inl hxst) (Or.inl hW)
                      exact hxid (hxeq ▸ hid_r ▸ rfl)
                  refine ⟨?_, ?_, ?_⟩
                  · simp only [waitingRef]
                    constructor
                    · intro h
                      exact absurd h (by simp)
                    · intro h
                      exact absurd h hnowaiting
                  · simp only [completedRef]
                    constructor
                    · intro _
                      exact hcompletedref
                    · intro _
                      trivial
                  · simp only [ownerRef]
                    constructor
                    · intro h
                      exact absurd h (by simp)
                    · intro h
                      exfalso
                      obtain ⟨x, hx, hxnum, hxst⟩ := hcompletedref
                      exact h ⟨x, hx, hxnum, Or.inr hxst⟩
                · -- untouched number: its references are untouched
                  have hgm2 : m' = m := by rw [← hgm, if_neg hcase]
                  rw [hgm2]
                  have htransfer : ∀ P : ReservationStatus → Prop,
                      (P ReservationStatus.WAITING_CODE → P ReservationStatus.COMPLETED → False) →
                      True := fun _ _ => trivial
                  have hrefs : ∀ (x' : ReservationRow),
                      x' ∈ (complete_reservation_atomic db rid code now).db.reservations →
                      x'.number_id = m.id →
                      (x'.status = ReservationStatus.WAITING_CODE ∨
                       x'.status = ReservationStatus.COMPLETED) →
                      ∃ x ∈ db.reservations, x' = x := by
                    rw [hres]
                    rintro x' hx' hxnum hxst
                    obtain ⟨x, hx, hfx⟩ := List.mem_map.mp hx'
                    by_cases hxid : x.id = rid
                    · exfalso
                      have hx2 := hxr x hx hxid
                      subst hx2
                      rw [if_pos hxid] at hfx
                      rw [← hfx] at hxnum
                      simp at hxnum
                      exact hcase (by rw [← hxnum, hid_n])
                    · rw [if_neg hxid] at hfx
                      exact ⟨x, hx, hfx.symm⟩
                  have hrefs2 : ∀ (x : ReservationRow), x ∈ db.reservations →
                      x.number_id = m.id →
                      (x.status = ReservationStatus.WAITING_CODE ∨
                       x.status = ReservationStatus.COMPLETED) →
                      x ∈ (complete_reservation_atomic db rid code now).db.reservations := by
                    rw [hres]
                    intro x hx hxnum hxst
                    have hxid : x.id ≠ rid := by
                      intro hxid
                      have hx2 := hxr x hx hxid
                      subst hx2
                      exact hcase (by rw [← hxnum, hid_n])
                    refine List.mem_map.mpr ⟨x, hx, ?_⟩
                    rw [if_neg hxid]
                  refine ⟨?_, ?_, ?_⟩
                  · rw [hc1]
                    simp only [waitingRef]
                    constructor
                    · rintro ⟨x, hx, hxnum, hxst⟩
                      exact ⟨x, hrefs2 x hx hxnum (Or.inl hxst), hxnum, hxst⟩
                    · rintro ⟨x', hx', hxnum, hxst⟩
                      obtain ⟨x, hx, hfx⟩ := hrefs x' hx' hxnum (Or.inl hxst)
                      exact ⟨x, hx, by rw [← hfx]; exact hxnum, by rw [← hfx]; exact hxst⟩
                  · rw [hc2]
                    simp only [completedRef]
                    constructor
                    · rintro ⟨x, hx, hxnum, hxst⟩
                      exact ⟨x, hrefs2 x hx hxnum (Or.inr hxst), hxnum, hxst⟩
                    · rintro ⟨x', hx', hxnum, hxst⟩
                      obtain ⟨x, hx, hfx⟩ := hrefs x' hx' hxnum (Or.inr hxst)
                      exact ⟨x, hx, by rw [← hfx]; exact hxnum, by rw [← hfx]; exact hxst⟩
                  · rw [hc3]
                    simp only [ownerRef]
                    constructor
                    · rintro hno ⟨x', hx', hxnum, hxst⟩
                      obtain ⟨x, hx, hfx⟩ := hrefs x' hx' hxnum hxst
                      exact hno ⟨x, hx, by rw [← hfx]; exact hxnum, by rw [← hfx]; exact hxst⟩
                    · rintro hno ⟨x, hx, hxnum, hxst⟩
                      exact hno ⟨x, hrefs2 x hx hxnum hxst, hxnum, hxst⟩
    · rw [show (complete_reservation_atomic db rid code now).db = db from by
        simp [complete_reservation_atomic, hR, hW]]
      exact ⟨Ur, Un, bound, ownU, noDel, SC⟩

theorem consistent_reserve (db : DB) (uid sid : Nat) (cc : String) (now : Nat)
    (hC : Consistent db) : Consistent (reserve_number db uid sid cc now).1 := by
  obtain ⟨Ur, Un, bound, ownU, noDel, SC⟩ := hC
  rcases h : db.numbers.find? (fun n =>
      decide (n.service_id = sid) && decide (n.country_code = cc) &&
      decide (n.status = NumberStatus.AVAILABLE)) with _ | a
  · rw [show (reserve_number db uid sid cc now).1 = db from by simp [reserve_number, h]]
    exact ⟨Ur, Un, bound, ownU, noDel, SC⟩
  · have hmem_a : a ∈ db.numbers := List.mem_of_find?_eq_some h
    have hp := List.find?_some h
    simp only [Bool.and_eq_true, decide_eq_true_eq] at hp
    obtain ⟨⟨-, -⟩, ha_avail⟩ := hp
    have hnoown : ¬ ownerRef db a.id := (SC a hmem_a).2.2.mp ha_avail
    obtain ⟨R, hres, hRid, hRnum, hRstat⟩ :
        ∃ R : ReservationRow, (reserve_number db uid sid cc now).1.reservations =
          db.reservations ++ [R] ∧ R.id = db.next_reservation_id ∧
          R.number_id = a.id ∧ R.status = ReservationStatus.WAITING_CODE :=
      ⟨{ id := db.next_reservation_id, user_id := uid, service_id := sid, number_id := a.id, status := ReservationStatus.WAITING_CODE, created_at := some now, completed_at := none, expired_at := some (now + RESERVATION_TIMEOUT_MIN * 60), code_value := none }, by simp [reserve_number, h, updateNumberById], rfl, rfl, rfl⟩
    have hnum : (reserve_number db uid sid cc now).1.numbers =
        db.numbers.map (fun n => if n.id = a.id then
          reserveNumberFor uid now (some (now + RESERVATION_TIMEOUT_MIN * 60)) n else n) := by
      simp [reserve_number, h, updateNumberById]
    have hnext : (reserve_number db uid sid cc now).1.next_reservation_id =
        db.next_reservation_id + 1 := by
      simp [reserve_number, h]
    have hGid : ∀ n : NumberRow,
        ((if n.id = a.id then
          reserveNumberFor uid now (some (now + RESERVATION_TIMEOUT_MIN * 60)) n
         else n) : NumberRow).id = n.id := by
      intro n
      by_cases hn : n.id = a.id <;> simp [hn]
    have hRmem : R ∈ (reserve_number db uid sid cc now).1.reservations := by
      rw [hres]
      exact List.mem_append.mpr (Or.inr (List.mem_singleton.mpr rfl))
    refine ⟨?_, ?_, ?_, ?_, ?_, ?_⟩
    · rw [hres]
      refine List.pairwise_append.mpr ⟨Ur, by simp, ?_⟩
      intro x hx y hy
      have hy2 := List.mem_singleton.mp hy
      subst hy2
      show x.id ≠ y.id
      rw [hRid]
      exact Nat.ne_of_lt (bound x hx)
    · rw [hnum]
      refine (List.pairwise_map).mpr (Un.imp (fun {x y} hxy => ?_))
      intro hc
      simp only [hGid] at hc
      exact hxy hc
    · rw [hres, hnext]
      intro x hx
      rcases List.mem_append.mp hx with hx | hx
      · exact Nat.lt_trans (bound x hx) (Nat.lt_succ_self _)
      · rw [List.mem_singleton.mp hx, hRid]
        exact Nat.lt_succ_self _
    · rw [hres]
      intro r1 hr1 r2 hr2 hnid h1 h2
      rcases List.mem_append.mp hr1 with hr1 | hr1 <;>
        rcases List.mem_append.mp hr2 with hr2 | hr2
      · exact ownU r1 hr1 r2 hr2 hnid h1 h2
      · exfalso
        apply hnoown
        refine ⟨r1, hr1, ?_, h1⟩
        rw [hnid, List.mem_singleton.mp hr2, hRnum]
      · exfalso
        apply hnoown
        refine ⟨r2, hr2, ?_, h2⟩
        rw [← hnid, List.mem_singleton.mp hr1, hRnum]
      · rw [List.mem_singleton.mp hr1, List.mem_singleton.mp hr2]
    · rw [hnum]
      intro m' hm'
      obtain ⟨m, hm, hgm⟩ := List.mem_map.mp hm'
      rw [← hgm]
      by_cases hcase : m.id = a.id <;> simp [hcase]
      exact noDel m hm
    · intro m' hm'
      rw [hnum] at hm'
      obtain ⟨m, hm, hgm⟩ := List.mem_map.mp hm'
      obtain ⟨hc1, hc2, hc3⟩ := SC m hm
      by_cases hcase : m.id = a.id
      · have hma := uniqueIds_eq_of_key_eq Un hm hmem_a hcase
        subst hma
        have hgm2 : m' = reserveNumberFor uid now
            (some (now + RESERVATION_TIMEOUT_MIN * 60)) m := by
          rw [← hgm, if_pos rfl]
        rw [hgm2]
        have hwait : waitingRef (reserve_number db uid sid cc now).1
            ((reserveNumberFor uid now (some (now + RESERVATION_TIMEOUT_MIN * 60)) m).id) :=
          ⟨R, hRmem, by rw [hRnum]; simp, hRstat⟩
        refine ⟨?_, ?_, ?_⟩
        · exact ⟨fun _ => hwait, fun _ => rfl⟩
        · constructor
          · intro hfalse
            exact absurd hfalse (by simp)
          · rintro ⟨x, hx, hxnum, hxst⟩
            exfalso
            rw [hres] at hx
            rcases List.mem_append.mp hx with hx | hx
            · apply hnoown
              refine ⟨x, hx, ?_, Or.inr hxst⟩
              simpa using hxnum
            · rw [List.mem_singleton.mp hx, hRstat] at hxst
              simp at hxst
        · constructor
          · intro hfalse
            exact absurd hfalse (by simp)
          · intro hno
            exfalso
            exact hno ⟨R, hRmem, by rw [hRnum]; simp, Or.inl hRstat⟩
      · have hgm2 : m' = m := by rw [← hgm, if_neg hcase]
        rw [hgm2]
        have hrefs : ∀ x, x ∈ (reserve_number db uid sid cc now).1.reservations →
            x.number_id = m.id → x ∈ db.reservations := by
          intro x hx hxnum
          rw [hres] at hx
          rcases List.mem_append.mp hx with hx | hx
          · exact hx
          · exfalso
            rw [List.mem_singleton.mp hx, hRnum] at hxnum
            exact hcase hxnum.symm
        have hrefs2 : ∀ x, x ∈ db.reservations →
            x ∈ (reserve_number db uid sid cc now).1.reservations := by
          intro x hx
          rw [hres]
          exact List.mem_append.mpr (Or.inl hx)
        refine ⟨?_, ?_, ?_⟩
        · rw [hc1]
          simp only [waitingRef]
          constructor
          · rintro ⟨x, hx, hxnum, hxst⟩
            exact ⟨x, hrefs2 x hx, hxnum, hxst⟩
          · rintro ⟨x, hx, hxnum, hxst⟩
            exact ⟨x, hrefs x hx hxnum, hxnum, hxst⟩
        · rw [hc2]
          simp only [completedRef]
          constructor
          · rintro ⟨x, hx, hxnum, hxst⟩
            exact ⟨x, hrefs2 x hx, hxnum, hxst⟩
          · rintro ⟨x, hx, hxnum, hxst⟩
            exact ⟨x, hrefs x hx hxnum, hxnum, hxst⟩
        · rw [hc3]
          simp only [ownerRef]
          constructor
          · rintro hno ⟨x, hx, hxnum, hxst⟩
            exact hno ⟨x, hrefs x hx hxnum, hxnum, hxst⟩
          · rintro hno ⟨x, hx, hxnum, hxst⟩
            exact hno ⟨x, hrefs2 x hx, hxnum, hxst⟩

theorem consistent_change_number (db : DB) (rid now : Nat) (hC : Consistent db) :
    Consistent (change_number db rid now) := by
  obtain ⟨Ur, Un, bound, ownU, noDel, SC⟩ := hC
  rcases hR : findReservation db rid with _ | r
  · rw [show change_number db rid now = db by simp [change_number, hR]]
    exact ⟨Ur, Un, bound, ownU, noDel, SC⟩
  · by_cases hW : r.status = ReservationStatus.WAITING_CODE
    · rcases hN : findNumber db r.number_id with _ | cn
      · rw [show change_number db rid now = db by simp [change_number, hR, hW, hN]]
        exact ⟨Ur, Un, bound, ownU, noDel, SC⟩
      · obtain ⟨hmem_r, hid_r⟩ := find?_key_some hR
        obtain ⟨hmem_cn, hid_cn⟩ := find?_key_some hN
        have hres_cn : cn.status = NumberStatus.RESERVED :=
          (SC cn hmem_cn).1.mpr ⟨r, hmem_r, hid_cn.symm, hW⟩
        have hxr : ∀ x ∈ db.reservations, x.id = rid → x = r := by
          intro x hx hxid
          exact uniqueIds_eq_of_key_eq Ur hx hmem_r (hxid.trans hid_r.symm)
        rcases hF : (updateNumberById db cn.id clearNumber).numbers.find? (fun n =>
            decide (n.service_id = r.service_id) &&
            decide (n.country_code = cn.country_code) &&
            decide (n.status = NumberStatus.AVAILABLE) &&
            decide (n.id ≠ cn.id)) with _ | nn
        · -- no replacement found: the original number is restored to RESERVED
          have hstep : change_number db rid now =
              updateNumberById (updateNumberById db cn.id clearNumber) cn.id
                (reserveNumberFor r.user_id now r.expired_at) := by
            unfold change_number
            rw [hR]
            dsimp only
            rw [if_neg (fun h => h hW), hN]
            dsimp only
            rw [hF]
          rw [hstep]
          have hnum : (updateNumberById (updateNumberById db cn.id clearNumber) cn.id
              (reserveNumberFor r.user_id now r.expired_at)).numbers =
              db.numbers.map (fun n => if n.id = cn.id then
                reserveNumberFor r.user_id now r.expired_at (clearNumber n) else n) := by
            simp only [updateNumberById, List.map_map]
            apply List.map_congr_left
            intro n hn
            by_cases hcase : n.id = cn.id <;> simp [Function.comp, hcase]
          have hGid : ∀ n : NumberRow,
              ((if n.id = cn.id then
                reserveNumberFor r.user_id now r.expired_at (clearNumber n)
               else n) : NumberRow).id = n.id := by
            intro n
            by_cases hn : n.id = cn.id <;> simp [hn]
          refine ⟨Ur, ?_, bound, ownU, ?_, ?_⟩
          · rw [hnum]
            refine (List.pairwise_map).mpr (Un.imp (fun {x y} hxy => ?_))
            intro hc
            simp only [hGid] at hc
            exact hxy hc
          · rw [hnum]
            intro m' hm'
            obtain ⟨m, hm, hgm⟩ := List.mem_map.mp hm'
            rw [← hgm]
            by_cases hcase : m.id = cn.id <;> simp [hcase]
            exact noDel m hm
          · intro m' hm'
            rw [hnum] at hm'
            obtain ⟨m, hm, hgm⟩ := List.mem_map.mp hm'
            by_cases hcase : m.id = cn.id
            · have hmc := uniqueIds_eq_of_key_eq Un hm hmem_cn hcase
              subst hmc
              have hgm2 : m' = reserveNumberFor r.user_id now r.expired_at (clearNumber m) := by
                rw [← hgm, if_pos rfl]
              rw [hgm2]
              have hwait : waitingRef db
                  ((reserveNumberFor r.user_id now r.expired_at (clearNumber m)).id) := by
                refine ⟨r, hmem_r, ?_, hW⟩
                simpa using hid_cn.symm
              refine ⟨?_, ?_, ?_⟩
              · exact ⟨fun _ => hwait, fun _ => rfl⟩
              · constructor
                · intro hfalse
                  exact absurd hfalse (by simp)
                · intro hcomp
                  exfalso
                  have : m.status = NumberStatus.USED := (SC m hm).2.1.mpr (by simpa using hcomp)
                  rw [hres_cn] at this
                  simp at this
              · constructor
                · intro hfalse
                  exact absurd hfalse (by simp)
                · intro hno
                  exfalso
                  apply hno
                  refine ⟨r, hmem_r, ?_, Or.inl hW⟩
                  simpa using hid_cn.symm
            · have hgm2 : m' = m := by rw [← hgm, if_neg hcase]
              rw [hgm2]
              exact SC m hm
        · -- replacement found: the reservation moves onto the new number
          have hstep : change_number db rid now =
              updateNumberById (updateReservationById
                  (updateNumberById db cn.id clearNumber) rid
                  (fun x => { x with number_id := nn.id })) nn.id
                (reserveNumberFor r.user_id now r.expired_at) := by
            unfold change_number
            rw [hR]
            dsimp only
            rw [if_neg (fun h => h hW), hN]
            dsimp only
            rw [hF]
          rw [hstep]
          have hp := List.find?_some hF
          simp only [Bool.and_eq_true, decide_eq_true_eq] at hp
          obtain ⟨⟨⟨hnn_sid, hnn_cc⟩, hnn_avail⟩, hnn_ne⟩ := hp
          have hmem_nn' := List.mem_of_find?_eq_some hF
          have hmem_nn : nn ∈ db.numbers := by
            simp only [updateNumberById] at hmem_nn'
            obtain ⟨n0, hn0, hgn0⟩ := List.mem_map.mp hmem_nn'
            by_cases hcase : n0.id = cn.id
            · exfalso
              rw [if_pos hcase] at hgn0
              apply hnn_ne
              rw [← hgn0]
              simp [hcase]
            · rw [if_neg hcase] at hgn0
              rw [← hgn0]
              exact hn0
          have hnoown_nn : ¬ ownerRef db nn.id := (SC nn hmem_nn).2.2.mp hnn_avail
          have hresv : (updateNumberById (updateReservationById
              (updateNumberById db cn.id clearNumber) rid
              (fun x => { x with number_id := nn.id })) nn.id
              (reserveNumberFor r.user_id now r.expired_at)).reservations =
              db.reservations.map (fun x =>
                if x.id = rid then { x with number_id := nn.id } else x) := rfl
          have hnum : (updateNumberById (updateReservationById
              (updateNumberById db cn.id clearNumber) rid
              (fun x => { x with number_id := nn.id })) nn.id
              (reserveNumberFor r.user_id now r.expired_at)).numbers =
              db.numbers.map (fun n =>
                if n.id = nn.id then reserveNumberFor r.user_id now r.expired_at n
                else if n.id = cn.id then clearNumber n else n) := by
            simp only [updateNumberById, updateReservationById, List.map_map]
            apply List.map_congr_left
            intro n hn
            simp only [Function.comp]
            by_cases h1 : n.id = nn.id
            · have h2 : n.id ≠ cn.id := by rw [h1]; exact hnn_ne
              rw [if_neg h2, if_pos h1]
            · by_cases h2 : n.id = cn.id
              · rw [if_pos h2, clearNumber_id, if_neg h1, if_neg h1]
              · rw [if_neg h2, if_neg h1]
          have hFid : ∀ x : ReservationRow,
              ((if x.id = rid then ({ x with number_id := nn.id } : ReservationRow)
                else x) : ReservationRow).id = x.id := by
            intro x
            by_cases h : x.id = rid <;> simp [h]
          have hFstat : ∀ x : ReservationRow,
              ((if x.id = rid then ({ x with number_id := nn.id } : ReservationRow)
                else x) : ReservationRow).status = x.status := by
            intro x
            by_cases h : x.id = rid <;> simp [h]
          have hGid : ∀ n : NumberRow,
              ((if n.id = nn.id then reserveNumberFor r.user_id now r.expired_at n
                else if n.id = cn.id then clearNumber n else n) : NumberRow).id = n.id := by
            intro n
            by_cases h1 : n.id = nn.id
            · rw [if_pos h1]
              simp
            · rw [if_neg h1]
              by_cases h2 : n.id = cn.id
              · rw [if_pos h2]
                simp
              · rw [if_neg h2]
          refine ⟨?_, ?_, ?_, ?_, ?_, ?_⟩
          · rw [hresv]
            refine (List.pairwise_map).mpr (Ur.imp (fun {x y} hxy => ?_))
            intro hc
            simp only [hFid] at hc
            exact hxy hc
          · rw [hnum]
            refine (List.pairwise_map).mpr (Un.imp (fun {x y} hxy => ?_))
            intro hc
            simp only [hGid] at hc
            exact hxy hc
          · rw [hresv]
            intro row hrow
            obtain ⟨x, hx, hfx⟩ := List.mem_map.mp hrow
            have : row.id = x.id := by rw [← hfx]; exact hFid x
            rw [this]
            exact bound x hx
          · rw [hresv]
            intro r1 hr1 r2 hr2 hnid h1 h2
            obtain ⟨x1, hx1, hfx1⟩ := List.mem_map.mp hr1
            obtain ⟨x2, hx2, hfx2⟩ := List.mem_map.mp hr2
            have h1' : x1.status = ReservationStatus.WAITING_CODE ∨
                x1.status = ReservationStatus.COMPLETED := by
              rw [← hFstat x1, hfx1]
              exact h1
            have h2' : x2.status = ReservationStatus.WAITING_CODE ∨
                x2.status = ReservationStatus.COMPLETED := by
              rw [← hFstat x2, hfx2]
              exact h2
            rw [← hfx1, ← hfx2]
            by_cases hx1id : x1.id = rid <;> by_cases hx2id : x2.id = rid
            · rw [hxr x1 hx1 hx1id, hxr x2 hx2 hx2id]
            · exfalso
              apply hnoown_nn
              refine ⟨x2, hx2, ?_, h2'⟩
              have hn1 : r1.number_id = nn.id := by
                rw [← hfx1, if_pos hx1id]
              have hn2 : r2.number_id = x2.number_id := by
                rw [← hfx2, if_neg hx2id]
              rw [← hn2, ← hnid, hn1]
            · exfalso
              apply hnoown_nn
              refine ⟨x1, hx1, ?_, h1'⟩
              have hn2 : r2.number_id = nn.id := by
                rw [← hfx2, if_pos hx2id]
              have hn1 : r1.number_id = x1.number_id := by
                rw [← hfx1, if_neg hx1id]
              rw [← hn1, hnid, hn2]
            · have hx1' : r1 = x1 := by rw [← hfx1, if_neg hx1id]
              have hx2' : r2 = x2 := by rw [← hfx2, if_neg hx2id]
              rw [hx1', hx2'] at hnid
              rw [if_neg hx1id, if_neg hx2id]
              exact ownU x1 hx1 x2 hx2 hnid h1' h2'
          · rw [hnum]
            intro m' hm'
            obtain ⟨m, hm, hgm⟩ := List.mem_map.mp hm'
            rw [← hgm]
            by_cases h1 : m.id = nn.id
            · rw [if_pos h1]
              simp
            · rw [if_neg h1]
              by_cases h2 : m.id = cn.id
              · rw [if_pos h2]
                simp
              · rw [if_neg h2]
                exact noDel m hm
          · intro m' hm'
            rw [hnum] at hm'
            obtain ⟨m, hm, hgm⟩ := List.mem_map.mp hm'
            by_cases h1 : m.id = nn.id
            · -- the new number: now RESERVED and owned by the moved reservation
              have hmn := uniqueIds_eq_of_key_eq Un hm hmem_nn h1
              subst hmn
              have hgm2 : m' = reserveNumberFor r.user_id now r.expired_at m := by
                rw [← hgm, if_pos rfl]
              rw [hgm2]
              have hRmem : ({ r with number_id := m.id } : ReservationRow) ∈
                  db.reservations.map (fun x =>
                    if x.id = rid then { x with number_id := m.id } else x) :=
                List.mem_map.mpr ⟨r, hmem_r, by rw [if_pos hid_r]⟩
              have hnoother : ∀ x' ∈ db.reservations.map (fun x =>
                  if x.id = rid then ({ x with number_id := m.id } : ReservationRow) else x),
                  x'.number_id = m.id →
                  (x'.status = ReservationStatus.WAITING_CODE ∨
                   x'.status = ReservationStatus.COMPLETED) →
                  x' = { r with number_id := m.id } := by
                intro x' hx' hxnum hxst
                obtain ⟨x, hx, hfx⟩ := List.mem_map.mp hx'
                by_cases hxid : x.id = rid
                · rw [← hfx, if_pos hxid, hxr x hx hxid]
                · exfalso
                  rw [if_neg hxid] at hfx
                  apply hnoown_nn
                  rw [← hfx] at hxnum hxst
                  exact ⟨x, hx, hxnum, hxst⟩
              refine ⟨?_, ?_, ?_⟩
              · constructor
                · intro _
                  exact ⟨{ r with number_id := m.id }, hRmem, by simp, by simpa using hW⟩
                · intro _
                  rfl
              · constructor
                · intro hfalse
                  exact absurd hfalse (by simp)
                · rintro ⟨x', hx', hxnum, hxst⟩
                  exfalso
                  have := hnoother x' (by rw [hresv] at hx'; exact hx')
                    (by simpa using hxnum) (Or.inr hxst)
                  rw [this] at hxst
                  simp only at hxst
                  rw [hW] at hxst
                  simp at hxst
              · constructor
                · intro hfalse
                  exact absurd hfalse (by simp)
                · intro hno
                  exfalso
                  apply hno
                  refine ⟨{ r with number_id := m.id }, ?_, by simp, Or.inl (by simpa using hW)⟩
                  rw [hresv]
                  exact hRmem
            · by_cases h2 : m.id = cn.id
              · -- the released number: now AVAILABLE with no remaining owner
                have hmc := uniqueIds_eq_of_key_eq Un hm hmem_cn h2
                subst hmc
                have hgm2 : m' = clearNumber m := by
                  rw [← hgm, if_neg h1, if_pos rfl]
                rw [hgm2]
                have hnoowner : ∀ x' ∈ db.reservations.map (fun x =>
                    if x.id = rid then ({ x with number_id := nn.id } : ReservationRow) else x),
                    x'.number_id = m.id →
                    (x'.status = ReservationStatus.WAITING_CODE ∨
                     x'.status = ReservationStatus.COMPLETED) → False := by
                  intro x' hx' hxnum hxst
                  obtain ⟨x, hx, hfx⟩ := List.mem_map.mp hx'
                  by_cases hxid : x.id = rid
                  · rw [← hfx, if_pos hxid] at hxnum
                    simp only at hxnum
                    exact h1 (by rw [← hxnum])
                  · rw [if_neg hxid] at hfx
                    rw [← hfx] at hxnum hxst
                    have hxeq : x = r := ownU x hx r hmem_r
                      (by rw [hxnum, hid_cn]) hxst (Or.inl hW)
                    exact hxid (hxeq ▸ hid_r ▸ rfl)
                refine ⟨?_, ?_, ?_⟩
                · constructor
                  · intro hfalse
                    exact absurd hfalse (by simp)
                  · rintro ⟨x', hx', hxnum, hxst⟩
                    exfalso
                    exact hnoowner x' (by rw [hresv] at hx'; exact hx')
                      (by simpa using hxnum) (Or.inl hxst)
                · constructor
                  · intro hfalse
                    exact absurd hfalse (by simp)
                  · rintro ⟨x', hx', hxnum, hxst⟩
                    exfalso
                    exact hnoowner x' (by rw [hresv] at hx'; exact hx')
                      (by simpa using hxnum) (Or.inr hxst)
                · constructor
                  · intro _
                    rintro ⟨x', hx', hxnum, hxst⟩
                    exact hnoowner x' (by rw [hresv] at hx'; exact hx')
                      (by simpa using hxnum) hxst
                  · intro _
                    rfl
              · -- an untouched number: its reference set is untouched
                have hgm2 : m' = m := by rw [← hgm, if_neg h1, if_neg h2]
                rw [hgm2]
                obtain ⟨hc1, hc2, hc3⟩ := SC m hm
                have hrefs : ∀ x', x' ∈ db.reservations.map (fun x =>
                    if x.id = rid then ({ x with number_id := nn.id } : ReservationRow) else x) →
                    x'.number_id = m.id → x' ∈ db.reservations := by
                  intro x' hx' hxnum
                  obtain ⟨x, hx, hfx⟩ := List.mem_map.mp hx'
                  by_cases hxid : x.id = rid
                  · exfalso
                    rw [← hfx, if_pos hxid] at hxnum
                    simp only at hxnum
                    exact h1 (by rw [← hxnum])
                  · rw [if_neg hxid] at hfx
                    rw [← hfx]
                    exact hx
                have hrefs2 : ∀ x, x ∈ db.reservations → x.number_id = m.id →
                    x ∈ db.reservations.map (fun x =>
                      if x.id = rid then ({ x with number_id := nn.id } : ReservationRow) else x) := by
                  intro x hx hxnum
                  have hxid : x.id ≠ rid := by
                    intro hxid
                    have hxeq := hxr x hx hxid
                    subst hxeq
                    exact h2 (by rw [← hxnum, hid_cn])
                  exact List.mem_map.mpr ⟨x, hx, by rw [if_neg hxid]⟩
                refine ⟨?_, ?_, ?_⟩
                · rw [hc1]
                  constructor
                  · rintro ⟨x, hx, hxnum, hxst⟩
                    exact ⟨x, by rw [hresv]; exact hrefs2 x hx hxnum, hxnum, hxst⟩
                  · rintro ⟨x', hx', hxnum, hxst⟩
                    exact ⟨x', hrefs x' (by rw [hresv] at hx'; exact hx') hxnum, hxnum, hxst⟩
                · rw [hc2]
                  constructor
                  · rintro ⟨x, hx, hxnum, hxst⟩
                    exact ⟨x, by rw [hresv]; exact hrefs2 x hx hxnum, hxnum, hxst⟩
                  · rintro ⟨x', hx', hxnum, hxst⟩
                    exact ⟨x', hrefs x' (by rw [hresv] at hx'; exact hx') hxnum, hxnum, hxst⟩
                · rw [hc3]
                  constructor
                  · rintro hno ⟨x', hx', hxnum, hxst⟩
                    exact hno ⟨x', hrefs x' (by rw [hresv] at hx'; exact hx') hxnum, hxnum, hxst⟩
                  · rintro hno ⟨x, hx, hxnum, hxst⟩
                    exact hno ⟨x, by rw [hresv]; exact hrefs2 x hx hxnum, hxnum, hxst⟩
    · rw [show change_number db rid now = db by simp [change_number, hR, hW]]
      exact ⟨Ur, Un, bound, ownU, noDel, SC⟩

theorem consistent_change_country (db : DB) (rid : Nat) (hC : Consistent db)
    (hSt : ∀ row ∈ db.reservations, row.id = rid →
      ∀ x ∈ db.reservations, x.number_id = row.number_id →
        (x.status = ReservationStatus.WAITING_CODE ∨
         x.status = ReservationStatus.COMPLETED) → x.id = rid) :
    Consistent (change_country db rid) := by
  obtain ⟨Ur, Un, bound, ownU, noDel, SC⟩ := hC
  rcases hR : findReservation db rid with _ | r
  · rw [show change_country db rid = db by simp [change_country, hR]]
    exact ⟨Ur, Un, bound, ownU, noDel, SC⟩
  · obtain ⟨hmem_r, hid_r⟩ := find?_key_some hR
    have hOwn : ∀ x ∈ db.reservations, x.number_id = r.number_id →
        (x.status = ReservationStatus.WAITING_CODE ∨
         x.status = ReservationStatus.COMPLETED) → x.id = rid :=
      hSt r hmem_r hid_r
    have hxr : ∀ x ∈ db.reservations, x.id = rid → x = r := by
      intro x hx hxid
      exact uniqueIds_eq_of_key_eq Ur hx hmem_r (hxid.trans hid_r.symm)
    have hmemf : ∀ x : ReservationRow,
        x ∈ db.reservations.filter (fun y => decide (y.id ≠ rid)) ↔
        (x ∈ db.reservations ∧ x.id ≠ rid) := by
      intro x
      simp [List.mem_filter]
    rcases hN : findNumber db r.number_id with _ | cn
    · -- the reservation's number row does not exist: only the row is deleted
      have hresv : (change_country db rid).reservations =
          db.reservations.filter (fun x => decide (x.id ≠ rid)) := by
        simp [change_country, hR, hN]
      have hnum : (change_country db rid).numbers = db.numbers := by
        simp [change_country, hR, hN]
      have hnext : (change_country db rid).next_reservation_id =
          db.next_reservation_id := by
        simp [change_country, hR, hN]
      have hnone : ∀ m ∈ db.numbers, m.id ≠ r.number_id := by
        intro m hm
        have := List.find?_eq_none.mp hN m hm
        simpa using this
      refine ⟨?_, ?_, ?_, ?_, ?_, ?_⟩
      · rw [hresv]
        exact List.Pairwise.sublist (List.filter_sublist _) Ur
      · rw [hnum]
        exact Un
      · rw [hresv, hnext]
        intro x hx
        exact bound x ((hmemf x).mp hx).1
      · rw [hresv]
        intro r1 hr1 r2 hr2 hnid h1 h2
        exact ownU r1 ((hmemf r1).mp hr1).1 r2 ((hmemf r2).mp hr2).1 hnid h1 h2
      · rw [hnum]
        exact noDel
      · intro m' hm'
        rw [hnum] at hm'
        obtain ⟨hc1, hc2, hc3⟩ := SC m' hm'
        have hrefs : ∀ x, x ∈ (change_country db rid).reservations →
            x.number_id = m'.id → x ∈ db.reservations := by
          intro x hx hxnum
          rw [hresv] at hx
          exact ((hmemf x).mp hx).1
        have hrefs2 : ∀ x, x ∈ db.reservations → x.number_id = m'.id →
            x ∈ (change_country db rid).reservations := by
          intro x hx hxnum
          rw [hresv]
          refine (hmemf x).mpr ⟨hx, ?_⟩
          intro hxid
          have hxeq := hxr x hx hxid
          subst hxeq
          exact hnone m' hm' hxnum.symm
        refine ⟨?_, ?_, ?_⟩
        · rw [hc1]
          simp only [waitingRef]
          constructor
          · rintro ⟨x, hx, hxnum, hxst⟩
            exact ⟨x, hrefs2 x hx hxnum, hxnum, hxst⟩
          · rintro ⟨x, hx, hxnum, hxst⟩
            exact ⟨x, hrefs x hx hxnum, hxnum, hxst⟩
        · rw [hc2]
          simp only [completedRef]
          constructor
          · rintro ⟨x, hx, hxnum, hxst⟩
            exact ⟨x, hrefs2 x hx hxnum, hxnum, hxst⟩
          · rintro ⟨x, hx, hxnum, hxst⟩
            exact ⟨x, hrefs x hx hxnum, hxnum, hxst⟩
        · rw [hc3]
          simp only [ownerRef]
          constructor
          · rintro hno ⟨x, hx, hxnum, hxst⟩
            exact hno ⟨x, hrefs x hx hxnum, hxnum, hxst⟩
          · rintro hno ⟨x, hx, hxnum, hxst⟩
            exact hno ⟨x, hrefs2 x hx hxnum, hxnum, hxst⟩
    · -- the number row exists: it is released and the reservation deleted
      obtain ⟨hmem_cn, hid_cn⟩ := find?_key_some hN
      have hresv : (change_country db rid).reservations =
          db.reservations.filter (fun x => decide (x.id ≠ rid)) := by
        simp [change_country, hR, hN, updateNumberById]
      have hnum : (change_country db rid).numbers =
          db.numbers.map (fun n => if n.id = cn.id then clearNumber n else n) := by
        simp [change_country, hR, hN, updateNumberById]
      have hnext : (change_country db rid).next_reservation_id =
          db.next_reservation_id := by
        simp [change_country, hR, hN, updateNumberById]
      have hGid : ∀ n : NumberRow,
          ((if n.id = cn.id then clearNumber n else n) : NumberRow).id = n.id := by
        intro n
        by_cases hn : n.id = cn.id <;> simp [hn]
      refine ⟨?_, ?_, ?_, ?_, ?_, ?_⟩
      · rw [hresv]
        exact List.Pairwise.sublist (List.filter_sublist _) Ur
      · rw [hnum]
        refine (List.pairwise_map).mpr (Un.imp (fun {x y} hxy => ?_))
        intro hc
        simp only [hGid] at hc
        exact hxy hc
      · rw [hresv, hnext]
        intro x hx
        exact bound x ((hmemf x).mp hx).1
      · rw [hresv]
        intro r1 hr1 r2 hr2 hnid h1 h2
        exact ownU r1 ((hmemf r1).mp hr1).1 r2 ((hmemf r2).mp hr2).1 hnid h1 h2
      · rw [hnum]
        intro m' hm'
        obtain ⟨m, hm, hgm⟩ := List.mem_map.mp hm'
        rw [← hgm]
        by_cases hcase : m.id = cn.id <;> simp [hcase]
        exact noDel m hm
      · intro m' hm'
        rw [hnum] at hm'
        obtain ⟨m, hm, hgm⟩ := List.mem_map.mp hm'
        by_cases hcase : m.id = cn.id
        · -- the released number: AVAILABLE, and its owner was deleted
          have hmc := uniqueIds_eq_of_key_eq Un hm hmem_cn hcase
          subst hmc
          have hgm2 : m' = clearNumber m := by rw [← hgm, if_pos rfl]
          rw [hgm2]
          have hnoowner : ∀ x, x ∈ (change_country db rid).reservations →
              x.number_id = m.id →
              (x.status = ReservationStatus.WAITING_CODE ∨
               x.status = ReservationStatus.COMPLETED) → False := by
            intro x hx hxnum hxst
            rw [hresv] at hx
            obtain ⟨hx, hxid⟩ := (hmemf x).mp hx
            exact hxid (hOwn x hx (by rw [hxnum, hid_cn]) hxst)
          refine ⟨?_, ?_, ?_⟩
          · constructor
            · intro hfalse
              exact absurd hfalse (by simp)
            · rintro ⟨x, hx, hxnum, hxst⟩
              exact absurd (hnoowner x hx (by simpa using hxnum) (Or.inl hxst)) id
          · constructor
            · intro hfalse
              exact absurd hfalse (by simp)
            · rintro ⟨x, hx, hxnum, hxst⟩
              exact absurd (hnoowner x hx (by simpa using hxnum) (Or.inr hxst)) id
          · constructor
            · intro _
              rintro ⟨x, hx, hxnum, hxst⟩
              exact hnoowner x hx (by simpa using hxnum) hxst
            · intro _
              rfl
        · -- an untouched number: its reference set is untouched
          have hgm2 : m' = m := by rw [← hgm, if_neg hcase]
          rw [hgm2]
          obtain ⟨hc1, hc2, hc3⟩ := SC m hm
          have hrefs : ∀ x, x ∈ (change_country db rid).reservations →
              x.number_id = m.id → x ∈ db.reservations := by
            intro x hx hxnum
            rw [hresv] at hx
            exact ((hmemf x).mp hx).1
          have hrefs2 : ∀ x, x ∈ db.reservations → x.number_id = m.id →
              x ∈ (change_country db rid).reservations := by
            intro x hx hxnum
            rw [hresv]
            refine (hmemf x).mpr ⟨hx, ?_⟩
            intro hxid
            have hxeq := hxr x hx hxid
            subst hxeq
            apply hcase
            rw [← hxnum, hid_cn]
          refine ⟨?_, ?_, ?_⟩
          · rw [hc1]
            simp only [waitingRef]
            constructor
            · rintro ⟨x, hx, hxnum, hxst⟩
              exact ⟨x, hrefs2 x hx hxnum, hxnum, hxst⟩
            · rintro ⟨x, hx, hxnum, hxst⟩
              exact ⟨x, hrefs x hx hxnum, hxnum, hxst⟩
          · rw [hc2]
            simp only [completedRef]
            constructor
            · rintro ⟨x, hx, hxnum, hxst⟩
              exact ⟨x, hrefs2 x hx hxnum, hxnum, hxst⟩
            · rintro ⟨x, hx, hxnum, hxst⟩
              exact ⟨x, hrefs x hx hxnum, hxnum, hxst⟩
          · rw [hc3]
            simp only [ownerRef]
            constructor
            · rintro hno ⟨x, hx, hxnum, hxst⟩
              exact hno ⟨x, hrefs x hx hxnum, hxnum, hxst⟩
            · rintro hno ⟨x, hx, hxnum, hxst⟩
              exact hno ⟨x, hrefs2 x hx hxnum, hxnum, hxst⟩

/-- C3 (amended): starting from a consistent store, every engine operation
preserves the spec's number/reservation status-consistency property — Reserve,
every expiry-sweep pass and the change-number handler unconditionally; Complete
whenever the call does not take the insufficient-balance branch; and the
change-country handler whenever every reservation currently owning the targeted
reservation's number is the targeted reservation itself (this holds in
particular for WAITING_CODE and COMPLETED reservations, which own their own
number, and for stale reservations whose number has no current owner).  The
claim as stated is false on exactly the two excluded paths, exhibited by the
separate counterexample theorem: the insufficient-balance branch of Complete
expires the reservation but leaves its Number RESERVED, and change-country on
a stale reservation whose number was since re-reserved releases a number its
new owner still waits on. -/
theorem c3_amended_consistency_preserved (db : DB) (op : EngineOp)
    (hC : Consistent db)
    (hIns : ∀ rid code now, op = EngineOp.completeOp rid code now →
      hitsInsufficient db rid = false)
    (hCC : ∀ rid, op = EngineOp.changeCountryOp rid →
      ∀ row ∈ db.reservations, row.id = rid →
        ∀ x ∈ db.reservations, x.number_id = row.number_id →
          (x.status = ReservationStatus.WAITING_CODE ∨
           x.status = ReservationStatus.COMPLETED) → x.id = rid) :
    StatusConsistent (applyOp db op) ∧ Consistent (applyOp db op) := by
  have hmain : Consistent (applyOp db op) := by
    cases op with
    | reserveOp u s cc now =>
      simp only [applyOp]
      exact consistent_reserve db u s cc now hC
    | completeOp rid code now =>
      simp only [applyOp]
      exact consistent_complete db rid code now hC (hIns rid code now rfl)
    | sweepOp now =>
      simp only [applyOp]
      exact consistent_sweep db now hC
    | changeNumberOp rid now =>
      simp only [applyOp]
      exact consistent_change_number db rid now hC
    | changeCountryOp rid =>
      simp only [applyOp]
      exact consistent_change_country db rid hC (hCC rid rfl)
  exact ⟨hmain.2.2.2.2.2, hmain⟩

theorem c3_amended_consistency_preserved_witness :
    StatusConsistent (applyOp exDB (EngineOp.completeOp 1 ("4821") 100)) ∧
    Consistent (applyOp exDB (EngineOp.completeOp 1 ("4821") 100)) :=
  c3_amended_consistency_preserved exDB (EngineOp.completeOp 1 ("4821") 100)
    (by decide)
    (fun rid code now h => by
      injection h with h1 h2 h3
      subst h1
      decide)
    (fun rid h => EngineOp.noConfusion h)
